import Mathlib

/-!
# hyperpic: query-parameter parsing and the image pipeline

A shallow embedding of `image/params.go` and `image.go`.

Go strings are byte sequences: `len`, indexing and the `strings`/`strconv`/`hex`
routines used by the source all work on bytes.  A Go `string` is therefore a
`List Nat` whose elements are byte values; string literals of the source are
written `utf8 "..."`.

Library routines of Go (`strings`, `strconv`, `encoding/hex`, `math`) are
embedded from the behaviour of the Go standard library (Go 1.13 and later for
the number syntax), on a platform whose `int` has 64 bits.
-/

namespace Hyperpic

/-! ## Go strings -/

/-- A Go `string`: its sequence of bytes. -/
abbrev GoString := List Nat

/-- UTF-8 encoding of one code point. -/
def utf8Char (c : Char) : List Nat :=
  let n := c.toNat
  if n < 128 then [n]
  else if n < 2048 then [192 + n / 64, 128 + n % 64]
  else if n < 65536 then [224 + n / 4096, 128 + n / 64 % 64, 128 + n % 64]
  else [240 + n / 262144, 128 + n / 4096 % 64, 128 + n / 64 % 64, 128 + n % 64]

/-- The bytes of a source-level string literal. -/
def utf8 (s : String) : GoString := s.data.flatMap utf8Char

/-- Go `strings.Split(s, sep)` for a one-byte separator `sep` (the source only
splits on `","`): the pieces between the occurrences of `sep`, so that a
string without `sep` (the empty string included) gives one piece. -/
def Split (s : GoString) (sep : Nat) : List GoString :=
  match s with
  | [] => [[]]
  | c :: cs =>
    if c = sep then [] :: Split cs sep
    else
      match Split cs sep with
      | [] => [[c]]
      | p :: ps => (c :: p) :: ps

/-- Go `strings.Contains(s, substr)`. -/
def Contains (s substr : GoString) : Bool :=
  match s with
  | [] => substr.isEmpty
  | c :: cs => substr.isPrefixOf (c :: cs) || Contains cs substr

/-- Go `strings.HasPrefix(s, prefix)`. -/
def HasPrefix (s pre : GoString) : Bool := pre.isPrefixOf s

/-- Go `strings.Replace(s, old, "", 1)` for a one-byte `old`: the first
occurrence of the byte is removed. -/
def ReplaceFirstWithEmpty (s : GoString) (old : Nat) : GoString := s.erase old

/-- Go `strings.Trim(s, " ")`: leading and trailing spaces removed. -/
def Trim (s : GoString) : GoString :=
  ((s.dropWhile (· = 32)).reverse.dropWhile (· = 32)).reverse

/-! ## strconv: integers -/

/-- The `Err` field of a `*strconv.NumError`. -/
inductive NumError
  | ErrSyntax
  | ErrRange
  deriving DecidableEq, Repr

/-- Width of Go `int` on the platform (`strconv.IntSize`). -/
def IntSize : Nat := 64

/-- The digit loop of `strconv.ParseUint` for an explicit base 10 and
`maxVal`: `n` is the accumulator.  The loop stops at the first byte that is not
a decimal digit (syntax error, value 0) and at the first digit where the value
overflows (range error, value `maxVal`), whichever comes first. -/
def parseUintLoop (maxVal : Nat) (n : Nat) : GoString → Nat × Option NumError
  | [] => (n, none)
  | c :: cs =>
    if 48 ≤ c ∧ c ≤ 57 then
      -- cutoff = maxUint64/10 + 1
      if n ≥ (2 ^ 64 - 1) / 10 + 1 then (maxVal, some .ErrRange)
      else
        let n10 := n * 10
        let n1 := (n10 + (c - 48)) % 2 ^ 64
        if n1 < n10 ∨ n1 > maxVal then (maxVal, some .ErrRange)
        else parseUintLoop maxVal n1 cs
    else (0, some .ErrSyntax)

/-- Go `strconv.ParseUint(s, 10, bitSize)` for `bitSize` in 1..64. -/
def ParseUint (s : GoString) (bitSize : Nat) : Nat × Option NumError :=
  if s = [] then (0, some .ErrSyntax)
  else parseUintLoop (2 ^ bitSize - 1) 0 s

/-- Go `strconv.ParseInt(s, 10, 0)`: optional sign, then `ParseUint`, then the
range check against the width of `int`. -/
def ParseInt (s : GoString) : Int × Option NumError :=
  match s with
  | [] => (0, some .ErrSyntax)
  | c :: cs =>
    let neg := decide (c = 45)
    let body := if c = 43 ∨ c = 45 then cs else c :: cs
    match ParseUint body IntSize with
    | (_, some .ErrSyntax) => (0, some .ErrSyntax)
    | (un, _) =>
      let cutoff : Nat := 2 ^ (IntSize - 1)
      if !neg ∧ un ≥ cutoff then ((cutoff : Int) - 1, some .ErrRange)
      else if neg ∧ un > cutoff then (-(cutoff : Int), some .ErrRange)
      else (if neg then -(un : Int) else (un : Int), none)

/-- The digit loop of the fast path of `strconv.Atoi`. -/
def atoiFast (n : Nat) : GoString → Option Nat
  | [] => some n
  | c :: cs => if 48 ≤ c ∧ c ≤ 57 then atoiFast (n * 10 + (c - 48)) cs else none

/-- Go `strconv.Atoi(s)`: a fast path for strings of 1 to 18 bytes, and
`ParseInt(s, 10, 0)` otherwise. -/
def Atoi (s : GoString) : Int × Option NumError :=
  if 0 < s.length ∧ s.length < 19 then
    match s with
    | [] => (0, some .ErrSyntax)
    | c :: cs =>
      let body := if c = 45 ∨ c = 43 then cs else c :: cs
      if body.length < 1 then (0, some .ErrSyntax)
      else
        match atoiFast 0 body with
        | none => (0, some .ErrSyntax)
        | some n => (if c = 45 then -(n : Int) else (n : Int), none)
  else ParseInt s

/-- Go `strconv.Itoa(i)`: the decimal digits of a natural number, most
significant first (`fuel` bounds the number of digits). -/
def natDigits : Nat → Nat → GoString
  | 0, n => [48 + n % 10]
  | fuel + 1, n => if n < 10 then [48 + n] else natDigits fuel (n / 10) ++ [48 + n % 10]

/-- Go `strconv.Itoa(i)`: canonical decimal rendering, `-` for negatives. -/
def Itoa (i : Int) : GoString :=
  if i < 0 then 45 :: natDigits i.natAbs i.natAbs else natDigits i.natAbs i.natAbs

/-! ## image/params.go: crop -/

/-- The `CropType` struct of the source. -/
structure CropType where
  Width : Int
  Height : Int
  X : Int
  Y : Int
  deriving DecidableEq, Repr

/-- One `strconv.Atoi` call of `parseCrop` followed by its
`if err != nil { v = -1 }`. -/
def atoiOrMinusOne (s : GoString) : Int :=
  match Atoi s with
  | (v, none) => v
  | (_, some _) => -1

/-- The function `parseCrop` of `image/params.go`. -/
def parseCrop (val : GoString) : CropType :=
  match Split val 44 with
  | [c0, c1, c2, c3] =>
    { Width := atoiOrMinusOne c0, Height := atoiOrMinusOne c1,
      X := atoiOrMinusOne c2, Y := atoiOrMinusOne c3 }
  | _ => { Width := -1, Height := -1, X := -1, Y := -1 }

/-! ## encoding/hex and fmt -/

/-- Errors of `encoding/hex`. -/
inductive HexError
  | InvalidByteError (b : Nat)
  | ErrLength
  deriving DecidableEq, Repr

/-- The `reverseHexTable` of `encoding/hex`: the value of a hexadecimal digit,
`none` for every other byte. -/
def fromHexChar (c : Nat) : Option Nat :=
  if 48 ≤ c ∧ c ≤ 57 then some (c - 48)
  else if 97 ≤ c ∧ c ≤ 102 then some (c - 97 + 10)
  else if 65 ≤ c ∧ c ≤ 70 then some (c - 65 + 10)
  else none

/-- Go `hex.DecodeString(s)`: the bytes decoded before the first error, and
the error.  Pairs are decoded left to right; an invalid byte is reported
before a bad (odd) length. -/
def DecodeString : GoString → List Nat × Option HexError
  | [] => ([], none)
  | [p] =>
    match fromHexChar p with
    | none => ([], some (.InvalidByteError p))
    | some _ => ([], some .ErrLength)
  | p :: q :: rest =>
    match fromHexChar p, fromHexChar q with
    | none, _ => ([], some (.InvalidByteError p))
    | some _, none => ([], some (.InvalidByteError q))
    | some a, some b => ((a * 16 + b) :: (DecodeString rest).1, (DecodeString rest).2)

/-- The verb `%c` of `fmt.Sprintf` applied to a byte: the UTF-8 encoding of the
code point with that number. -/
def fmtC (b : Nat) : GoString :=
  if b < 128 then [b] else [192 + b / 64, 128 + b % 64]

/-! ## Run-time panics -/

/-- A Go run-time panic raised by the code itself. -/
inductive RuntimePanic
  | indexOutOfRange (index len : Nat)
  deriving DecidableEq, Repr

deriving instance DecidableEq for Except

/-- The index expression `d[i]` on a slice: a run-time panic when `i` is not
below `len(d)`. -/
def index (d : List Nat) (i : Nat) : Except RuntimePanic Nat :=
  match d.get? i with
  | some b => .ok b
  | none => .error (.indexOutOfRange i d.length)

/-! ## image/params.go: colors -/

/-- The function `parseColor` of `image/params.go`.  The table `colorsToRGB`
(a `map[string][]uint8` declared elsewhere in the package) is a parameter.
The result is the returned slice, or the run-time panic that ends the call. -/
def parseColor (colorsToRGB : GoString → Option (List Nat)) (val : GoString) :
    Except RuntimePanic (List Nat) :=
  if val = [] then .ok []
  else
    match colorsToRGB val with
    | some color => .ok color
    | none =>
      if Contains val (utf8 ",") then
        let parts := Split val 44
        if parts.length ≠ 3 then .ok []
        else
          -- n ≤ 255 fits float64 exactly, so uint8(math.Min(float64(n), 255)) is min n 255
          .ok (parts.map fun num => min (ParseUint (Trim num) 8).1 255)
      else
        let val1 := if HasPrefix val (utf8 "#") then ReplaceFirstWithEmpty val 35 else val
        let val2 :=
          match val1 with
          | [a, b, c] => fmtC a ++ fmtC a ++ fmtC b ++ fmtC b ++ fmtC c ++ fmtC c
          | _ => val1
        match DecodeString val2 with
        | (_, some _) => .ok []
        | (d, none) => do
          let d0 ← index d 0
          let d1 ← index d 1
          let d2 ← index d 2
          pure [d0, d1, d2]

/-! ## float64 -/

/-- A value of Go `float64` (IEEE 754 binary64).  `fin neg m e` is the finite
number `(-1)^neg * m * 2^e`, kept in the canonical form of the format:
`m < 2^53`, `-1074 ≤ e ≤ 971`, and `e = -1074` whenever `m < 2^52` (zero and
the subnormals). -/
inductive F64
  | nan
  | inf (neg : Bool)
  | fin (neg : Bool) (m : Nat) (e : Int)
  deriving DecidableEq, Repr

/-- Loop of `bitLen`: halves `n` until it is 0, counting the steps in `acc`. -/
def bitLenAux : Nat → Nat → Nat → Nat
  | 0, _, acc => acc
  | fuel + 1, n, acc => if n = 0 then acc else bitLenAux fuel (n / 2) (acc + 1)

/-- Number of binary digits of `n` (`bits.Len`): 0 for 0. -/
def bitLen (n : Nat) : Nat := bitLenAux n n 0

/-- The integer part of `num / den / 2^e`. -/
def scaledFloor (num den : Nat) (e : Int) : Nat :=
  if 0 ≤ e then num / (den * 2 ^ e.toNat) else num * 2 ^ (-e).toNat / den

/-- The integer nearest to `num / den`, a tie going to the even one. -/
def roundHalfEven (num den : Nat) : Nat :=
  let q := num / den
  let r := num % den
  if 2 * r < den then q
  else if den < 2 * r then q + 1
  else if q % 2 = 0 then q else q + 1

/-- The integer nearest to `num / den / 2^e`, a tie going to the even one. -/
def scaledRound (num den : Nat) (e : Int) : Nat :=
  if 0 ≤ e then roundHalfEven num (den * 2 ^ e.toNat)
  else roundHalfEven (num * 2 ^ (-e).toNat) den

/-- IEEE 754 round-to-nearest-even of the rational `(-1)^neg * num / den`
(`den > 0`) to binary64; a magnitude that rounds beyond the largest finite
number gives the infinity. -/
def F64.round (neg : Bool) (num den : Nat) : F64 :=
  if num = 0 then .fin neg 0 (-1074)
  else
    let e0 : Int := (bitLen num : Int) - (bitLen den : Int) - 52
    -- 2^52 ≤ num / den / 2^e1 < 2^53
    let e1 := if scaledFloor num den e0 < 2 ^ 52 then e0 - 1 else e0
    let e := max e1 (-1074)
    let m := scaledRound num den e
    if m = 2 ^ 53 then
      if 971 < e + 1 then .inf neg else .fin neg (2 ^ 52) (e + 1)
    else if 971 < e then .inf neg else .fin neg m e

/-- The constant `0.5`. -/
def F64.half : F64 := .fin false (2 ^ 52) (-53)

/-- The value `+0`. -/
def F64.zero : F64 := .fin false 0 (-1074)

/-- Go `math.Abs`: the sign is cleared; NaN stays NaN. -/
def F64.Abs : F64 → F64
  | .nan => .nan
  | .inf _ => .inf false
  | .fin _ m e => .fin false m e

/-- Go `math.Floor`: the greatest integral value not above the argument;
`±0`, `±Inf` and NaN are returned unchanged. -/
def F64.Floor : F64 → F64
  | .nan => .nan
  | .inf neg => .inf neg
  | .fin neg m e =>
    if 0 ≤ e then .fin neg m e
    else
      let q := m / 2 ^ (-e).toNat
      let r := m % 2 ^ (-e).toNat
      if neg ∧ r ≠ 0 then F64.round true (q + 1) 1 else F64.round neg q 1

/-- The float64 addition `x + y` (round to nearest, ties to even). -/
def F64.add : F64 → F64 → F64
  | .nan, _ => .nan
  | _, .nan => .nan
  | .inf a, .inf b => if a = b then .inf a else .nan
  | .inf a, .fin _ _ _ => .inf a
  | .fin _ _ _, .inf b => .inf b
  | .fin s1 m1 e1, .fin s2 m2 e2 =>
    let e := min e1 e2
    let v1 : Int := (if s1 then -1 else 1) * (m1 * 2 ^ (e1 - e).toNat : Nat)
    let v2 : Int := (if s2 then -1 else 1) * (m2 * 2 ^ (e2 - e).toNat : Nat)
    let v := v1 + v2
    if v = 0 then .fin (s1 && s2) 0 (-1074)
    else if 0 ≤ e then F64.round (decide (v < 0)) (v.natAbs * 2 ^ e.toNat) 1
    else F64.round (decide (v < 0)) v.natAbs (2 ^ (-e).toNat)

/-- What the conversion `int(f)` gives for a float64 that `int` cannot
represent (NaN, an infinity, a value outside the range): the Go specification
leaves the value to the implementation. -/
structure Arch where
  intOutOfRange : F64 → Int

/-- On amd64 the conversion is the instruction CVTTSD2SQ, whose result for an
unrepresentable operand is the "integer indefinite" value `-2^63`. -/
def amd64 : Arch := ⟨fun _ => -(2 ^ 63)⟩

/-- The conversion `int(f)` of a float64: truncation toward zero when the
result fits the 64-bit `int`, the implementation's value otherwise. -/
def F64.toInt (arch : Arch) (f : F64) : Int :=
  match f with
  | .fin neg m e =>
    let t : Nat := if 0 ≤ e then m * 2 ^ e.toNat else m / 2 ^ (-e).toNat
    let v : Int := if neg then -(t : Int) else (t : Int)
    if -(2 ^ 63) ≤ v ∧ v < 2 ^ 63 then v else arch.intOutOfRange f
  | _ => arch.intOutOfRange f

/-! ## strconv: floating point -/

/-- The helper `lower` of `strconv`: `c | ('x' - 'X')`. -/
def lower (c : Nat) : Nat := c ||| 32

/-- The helper `commonPrefixLenIgnoreCase(s, prefix)` of `strconv`: the length
of the longest prefix of `s` that matches `prefix` (given in lower case), the
upper-case ASCII letters of `s` counted as their lower-case form. -/
def commonPrefixLenIgnoreCase : GoString → GoString → Nat
  | c :: cs, p :: ps =>
    if (if 65 ≤ c ∧ c ≤ 90 then c + 32 else c) = p then
      commonPrefixLenIgnoreCase cs ps + 1
    else 0
  | _, _ => 0

/-- The `infinity` case of `special`, on the string after its sign. -/
def specialInf (neg : Bool) (nsign : Nat) (s : GoString) : Option (F64 × Nat) :=
  let n := commonPrefixLenIgnoreCase s (utf8 "infinity")
  let n := if 3 < n ∧ n < 8 then 3 else n
  if n = 3 ∨ n = 8 then some (.inf neg, nsign + n) else none

/-- The helper `special` of `strconv`: the forms of infinity (optionally
signed) and NaN (unsigned), with the number of bytes read. -/
def special (s : GoString) : Option (F64 × Nat) :=
  match s with
  | [] => none
  | c :: cs =>
    if c = 43 then specialInf false 1 cs
    else if c = 45 then specialInf true 1 cs
    else if c = 105 ∨ c = 73 then specialInf false 0 (c :: cs)
    else if c = 110 ∨ c = 78 then
      if commonPrefixLenIgnoreCase (c :: cs) (utf8 "nan") = 3 then some (.nan, 3) else none
    else none

/-- State of the mantissa loop of `readFloat`: `mant` is the number written
by all the digits read, `nfrac` how many of them follow the point. -/
structure MantState where
  mant : Nat := 0
  nfrac : Nat := 0
  sawdot : Bool := false
  sawdigits : Bool := false
  underscores : Bool := false
  deriving DecidableEq, Repr

/-- The mantissa loop of `readFloat` in base 10 or 16: digits, at most one
point, underscores.  Returns the state and the unread rest. -/
def mantLoop (hex : Bool) (st : MantState) : GoString → MantState × GoString
  | [] => (st, [])
  | c :: cs =>
    if c = 95 then mantLoop hex { st with underscores := true } cs
    else if c = 46 then
      if st.sawdot then (st, c :: cs) else mantLoop hex { st with sawdot := true } cs
    else if 48 ≤ c ∧ c ≤ 57 then
      mantLoop hex { st with
        sawdigits := true
        mant := st.mant * (if hex then 16 else 10) + (c - 48)
        nfrac := if st.sawdot then st.nfrac + 1 else st.nfrac } cs
    else if hex ∧ 97 ≤ lower c ∧ lower c ≤ 102 then
      mantLoop hex { st with
        sawdigits := true
        mant := st.mant * 16 + (lower c - 97 + 10)
        nfrac := if st.sawdot then st.nfrac + 1 else st.nfrac } cs
    else (st, c :: cs)

/-- The exponent-digit loop of `readFloat`: digits and underscores; the
exponent stops growing once it has reached 10000.  Returns the exponent,
whether an underscore was read, and the unread rest. -/
def expLoop (e : Nat) (us : Bool) : GoString → Nat × Bool × GoString
  | [] => (e, us, [])
  | c :: cs =>
    if c = 95 then expLoop e true cs
    else if 48 ≤ c ∧ c ≤ 57 then expLoop (if e < 10000 then e * 10 + (c - 48) else e) us cs
    else (e, us, c :: cs)

/-- Loop of `underscoreOK`: `saw` is the class of the last byte (`0` digit,
`_` underscore, `!` other, `^` start). -/
def underscoreLoop (hex : Bool) (saw : Char) : GoString → Bool
  | [] => saw != '_'
  | c :: cs =>
    if (48 ≤ c ∧ c ≤ 57) ∨ (hex ∧ 97 ≤ lower c ∧ lower c ≤ 102) then underscoreLoop hex '0' cs
    else if c = 95 then
      if saw != '0' then false else underscoreLoop hex '_' cs
    else if saw == '_' then false
    else underscoreLoop hex '!' cs

/-- The helper `underscoreOK` of `strconv`: every underscore stands between
two digits, or between a base prefix and a digit. -/
def underscoreOK (s : GoString) : Bool :=
  let s1 := match s with
    | c :: cs => if c = 45 ∨ c = 43 then cs else c :: cs
    | [] => []
  match s1 with
  | z :: x :: rest =>
    if z = 48 ∧ (lower x = 98 ∨ lower x = 111 ∨ lower x = 120) then
      underscoreLoop (lower x = 120) '0' rest
    else underscoreLoop false '^' s1
  | _ => underscoreLoop false '^' s1

/-- What `readFloat` returns when `ok`: sign, base, the number written by the
digits, the power of the base (10, or 2 for a hexadecimal mantissa) that
scales it, and the number of bytes read. -/
structure FloatLit where
  neg : Bool
  hex : Bool
  mant : Nat
  exp : Int
  n : Nat
  deriving DecidableEq, Repr

/-- The helper `readFloat` of `strconv`: reads a decimal or hexadecimal
floating-point literal at the start of `s`; `none` when `ok` is false. -/
def readFloat (s : GoString) : Option FloatLit :=
  match s with
  | [] => none
  | c :: cs =>
    let neg := decide (c = 45)
    let s1 := if c = 43 ∨ c = 45 then cs else c :: cs
    let hex := match s1 with
      | z :: x :: _ :: _ => decide (z = 48 ∧ lower x = 120)
      | _ => false
    let (st, rest) := mantLoop hex {} (if hex then s1.drop 2 else s1)
    if !st.sawdigits then none
    else
      let dp : Int := -((if hex then 4 else 1) * st.nfrac : Nat)
      let finish (exp : Int) (us : Bool) (rest : GoString) : Option FloatLit :=
        let n := s.length - rest.length
        if us ∧ !underscoreOK (s.take n) then none
        else some { neg := neg, hex := hex, mant := st.mant, exp := exp, n := n }
      match rest with
      | x :: rest1 =>
        if lower x = (if hex then 112 else 101) then
          match rest1 with
          | [] => none
          | g :: rest2 =>
            let esign : Int := if g = 45 then -1 else 1
            let rest3 := if g = 43 ∨ g = 45 then rest2 else g :: rest2
            match rest3 with
            | [] => none
            | d :: _ =>
              if d < 48 ∨ 57 < d then none
              else
                let (e, us, rest4) := expLoop 0 st.underscores rest3
                finish (dp + e * esign) us rest4
        else if hex then none
        else finish dp st.underscores rest
      | [] => if hex then none else finish dp st.underscores rest

/-- The value of a literal read by `readFloat`, rounded to the nearest float64
(ties to even), with `ErrRange` when it overflows to an infinity. -/
def FloatLit.value (l : FloatLit) : F64 × Option NumError :=
  let b : Nat := if l.hex then 2 else 10
  let f := if 0 ≤ l.exp then F64.round l.neg (l.mant * b ^ l.exp.toNat) 1
    else F64.round l.neg l.mant (b ^ (-l.exp).toNat)
  match f with
  | .inf _ => (f, some .ErrRange)
  | _ => (f, none)

/-- Go `strconv.ParseFloat(s, 64)`: the special values, else a decimal or
hexadecimal literal that spans all of `s`; every other string gives value 0
with `ErrSyntax`. -/
def ParseFloat (s : GoString) : F64 × Option NumError :=
  match special s with
  | some (f, n) => if n ≠ s.length then (.zero, some .ErrSyntax) else (f, none)
  | none =>
    match readFloat s with
    | none => (.zero, some .ErrSyntax)
    | some l => if l.n ≠ s.length then (.zero, some .ErrSyntax) else l.value

/-! ## image/params.go: numbers -/

/-- The function `parseFloat` of `image/params.go`. -/
def parseFloat (param : GoString) : F64 :=
  (ParseFloat param).1.Abs

/-- The function `parseInt` of `image/params.go`:
`int(math.Floor(parseFloat(param) + 0.5))`. -/
def parseInt (arch : Arch) (param : GoString) : Int :=
  ((parseFloat param).add F64.half).Floor.toInt arch

/-! ## image/params.go: the options record -/

/-- The tables and types of the package that `params.go` uses and that are
declared in its other files: the color names, the orientation and fit names,
the default fit and the extension table.  `Fit` is the type `FitType`. -/
structure Tables (Fit : Type) where
  colorsToRGB : GoString → Option (List Nat)
  orientationToType : GoString → Option Int
  fitToType : GoString → Option Fit
  FitContain : Fit
  ExtensionToType : GoString → Int

/-- The constant `bimg.D0` (`type Angle int`). -/
def bimg.D0 : Int := 0

/-- The fields that `mapImageParams` fills in the struct `Options`. -/
structure Options (Fit : Type) where
  Width : Int
  Height : Int
  DPR : F64
  Quality : Int
  Format : Int
  Orientation : Int
  Fit : Fit
  Crop : CropType
  Background : List Nat
  Brightness : Int
  Contrast : Int
  Gamma : F64
  Sharpen : Int
  Blur : Int

/-- A value of type `interface{}` as stored in the map `params`: the dynamic
type and the value. -/
inductive Value (Fit : Type)
  | int (v : Int)
  | float64 (v : F64)
  | uint8s (v : List Nat)
  | bool (v : Bool)
  | Angle (v : Int)
  | FitType (v : Fit)
  | ImageType (v : Int)
  | CropType (v : CropType)
  | string (v : GoString)

/-- What ends a call of `ParseParams` abnormally: a run-time panic of
`parseColor`, or a failed type assertion of `mapImageParams` on a key. -/
inductive ParamsPanic
  | runtime (p : RuntimePanic)
  | typeAssertion (key : GoString)
  deriving DecidableEq, Repr

/-- The map `allowedParams`: query key and kind, as listed in the source. -/
def allowedParams : List (GoString × GoString) :=
  [ (utf8 "or", utf8 "orientation"), (utf8 "w", utf8 "int"), (utf8 "h", utf8 "int"),
    (utf8 "fit", utf8 "fit"), (utf8 "dpr", utf8 "float"), (utf8 "bri", utf8 "int"),
    (utf8 "con", utf8 "int"), (utf8 "gam", utf8 "float"), (utf8 "sharp", utf8 "int"),
    (utf8 "blur", utf8 "int"), (utf8 "pixel", utf8 "int"), (utf8 "bg", utf8 "color"),
    (utf8 "q", utf8 "int"), (utf8 "fm", utf8 "fm"), (utf8 "crop", utf8 "crop") ]

/-- Go `strconv.ParseBool` with the error dropped, as in `parseBool`. -/
def parseBool (val : GoString) : Bool :=
  val ∈ [utf8 "1", utf8 "t", utf8 "T", utf8 "TRUE", utf8 "true", utf8 "True"]

/-- The function `parseOrientation`. -/
def parseOrientation {Fit : Type} (tb : Tables Fit) (val : GoString) : Int :=
  match tb.orientationToType val with
  | none => bimg.D0
  | some o => o

/-- The function `parseFit`. -/
def parseFit {Fit : Type} (tb : Tables Fit) (val : GoString) : Fit :=
  match tb.fitToType val with
  | none => tb.FitContain
  | some fit => fit

/-- The function `parseFormat`. -/
def parseFormat {Fit : Type} (tb : Tables Fit) (val : GoString) : Int :=
  tb.ExtensionToType val

/-- The function `parseParam`: the parser chosen by `kind`. -/
def parseParam {Fit : Type} (tb : Tables Fit) (arch : Arch) (param kind : GoString) :
    Except ParamsPanic (Value Fit) :=
  if kind = utf8 "int" then .ok (.int (parseInt arch param))
  else if kind = utf8 "float" then .ok (.float64 (parseFloat param))
  else if kind = utf8 "color" then
    match parseColor tb.colorsToRGB param with
    | .ok c => .ok (.uint8s c)
    | .error p => .error (.runtime p)
  else if kind = utf8 "bool" then .ok (.bool (parseBool param))
  else if kind = utf8 "orientation" then .ok (.Angle (parseOrientation tb param))
  else if kind = utf8 "fit" then .ok (.FitType (parseFit tb param))
  else if kind = utf8 "fm" then .ok (.ImageType (parseFormat tb param))
  else if kind = utf8 "crop" then .ok (.CropType (parseCrop param))
  else .ok (.string param)

/-- Go `url.Values.Get(key)`: the first value of the key, `""` when it has
none.  A query is the map from keys to their lists of values. -/
def Get (query : GoString → List GoString) (key : GoString) : GoString :=
  match query key with
  | [] => []
  | v :: _ => v

/-- The loop of `ParseParams` over the entries of `allowedParams`: the map
`params` as the list of the pairs stored. -/
def parseAll {Fit : Type} (tb : Tables Fit) (arch : Arch) (query : GoString → List GoString) :
    List (GoString × GoString) → Except ParamsPanic (List (GoString × Value Fit))
  | [] => .ok []
  | (key, kind) :: rest =>
    match parseParam tb arch (Get query key) kind with
    | .error p => .error p
    | .ok v =>
      match parseAll tb arch query rest with
      | .error p => .error p
      | .ok m => .ok ((key, v) :: m)

/-- The map index `params[key]`: `none` is the nil interface of a missing key. -/
def lookup {Fit : Type} (params : List (GoString × Value Fit)) (key : GoString) :
    Option (Value Fit) :=
  (params.find? fun kv => kv.1 = key).map Prod.snd

/-- The assertion `params[key].(int)`. -/
def assertInt {Fit : Type} (params : List (GoString × Value Fit)) (key : String) :
    Except ParamsPanic Int :=
  match lookup params (utf8 key) with
  | some (.int v) => .ok v
  | _ => .error (.typeAssertion (utf8 key))

/-- The assertion `params[key].(float64)`. -/
def assertFloat {Fit : Type} (params : List (GoString × Value Fit)) (key : String) :
    Except ParamsPanic F64 :=
  match lookup params (utf8 key) with
  | some (.float64 v) => .ok v
  | _ => .error (.typeAssertion (utf8 key))

/-- The function `mapImageParams`: fourteen type assertions, in the order of
the struct literal. -/
def mapImageParams {Fit : Type} (params : List (GoString × Value Fit)) :
    Except ParamsPanic (Options Fit) := do
  let w ← assertInt params "w"
  let h ← assertInt params "h"
  let dpr ← assertFloat params "dpr"
  let q ← assertInt params "q"
  let fm ← match lookup params (utf8 "fm") with
    | some (.ImageType v) => .ok v
    | _ => .error (.typeAssertion (utf8 "fm"))
  let o ← match lookup params (utf8 "or") with
    | some (.Angle v) => .ok v
    | _ => .error (.typeAssertion (utf8 "or"))
  let fit ← match lookup params (utf8 "fit") with
    | some (.FitType v) => .ok v
    | _ => .error (.typeAssertion (utf8 "fit"))
  let crop ← match lookup params (utf8 "crop") with
    | some (.CropType v) => .ok v
    | _ => .error (.typeAssertion (utf8 "crop"))
  let bg ← match lookup params (utf8 "bg") with
    | some (.uint8s v) => .ok v
    | _ => .error (.typeAssertion (utf8 "bg"))
  let bri ← assertInt params "bri"
  let con ← assertInt params "con"
  let gam ← assertFloat params "gam"
  let sharp ← assertInt params "sharp"
  let blur ← assertInt params "blur"
  pure { Width := w, Height := h, DPR := dpr, Quality := q, Format := fm, Orientation := o,
         Fit := fit, Crop := crop, Background := bg, Brightness := bri, Contrast := con,
         Gamma := gam, Sharpen := sharp, Blur := blur }

/-- The function `ParseParams`: every allowed key is parsed from the first
value the query gives it, then the record is assembled. -/
def ParseParams {Fit : Type} (tb : Tables Fit) (arch : Arch) (query : GoString → List GoString) :
    Except ParamsPanic (Options Fit) :=
  match parseAll tb arch query allowedParams with
  | .error p => .error p
  | .ok params => mapImageParams params

/-! ## image.go -/

/-- The constants of `bimg.ImageType` (`type ImageType int`, counted from
`UNKNOWN = iota`). -/
def bimg.UNKNOWN : Int := 0
/-- The constant `bimg.JPEG`. -/
def bimg.JPEG : Int := 1
/-- The constant `bimg.WEBP`. -/
def bimg.WEBP : Int := 2
/-- The constant `bimg.PNG`. -/
def bimg.PNG : Int := 3
/-- The constant `bimg.TIFF`. -/
def bimg.TIFF : Int := 4
/-- The constant `bimg.GIF`. -/
def bimg.GIF : Int := 5
/-- The constant `bimg.PDF`. -/
def bimg.PDF : Int := 6
/-- The constant `bimg.SVG`. -/
def bimg.SVG : Int := 7

/-- The function `GetImageMimeType` of `image.go`. -/
def GetImageMimeType (code : Int) : GoString :=
  if code = bimg.PNG then utf8 "image/png"
  else if code = bimg.WEBP then utf8 "image/webp"
  else if code = bimg.TIFF then utf8 "image/tiff"
  else if code = bimg.GIF then utf8 "image/gif"
  else if code = bimg.SVG then utf8 "image/svg+xml"
  else if code = bimg.PDF then utf8 "application/pdf"
  else utf8 "image/jpeg"

/-- A Go `error` value: one made by `errors.New` or `fmt.Errorf` with its
message, or a value made by a library, told apart by `id`. -/
inductive GoError
  | New (msg : GoString)
  | lib (id : Nat)
  deriving DecidableEq, Repr

/-- The value a panic carries, as `recover()` returns it: nil, an `error`, a
`string`, or a value of another type.  It is nil for `panic(nil)` up to
Go 1.20 (and later with `GODEBUG=panicnil=1`); from Go 1.21 on `panic(nil)`
carries a `*runtime.PanicNilError`, which is an `error`. -/
inductive PanicValue
  | nil
  | error (e : GoError)
  | string (s : GoString)
  | other (id : Nat)
  deriving DecidableEq, Repr

/-- How a call into the engine ends: it returns, or it panics. -/
inductive Call (α : Type)
  | ret (a : α)
  | panic (r : PanicValue)

/-- The struct `Image`. -/
structure Image where
  Body : List Nat
  Mime : GoString
  deriving DecidableEq, Repr

/-- The zero value `Image{}`. -/
def Image.empty : Image := { Body := [], Mime := [] }

/-- The struct `Resource` (declared in another file): the two fields that
`ProcessImage` writes, and `rest` for all its other state. -/
structure Resource (X : Type) where
  Body : List Nat
  MimeType : GoString
  rest : X

/-- The collaborators of `image.go`: the method `resource.Read()` (which may
change the resource), `http.DetectContentType`, `filetype.Get` (the field
`kind.MIME.Value` and the error), `bimg.IsSVGImage`, the functions
`IsImageMimeTypeSupported` and `BimgOptions` of the package, and the two
engine calls `bimg.Resize` and `bimg.DetermineImageType`.  `O` is the type
`ImageOptions`, `B` the type `bimg.Options`. -/
structure Env (X O B : Type) where
  Read : Resource X → Resource X × List Nat × Option GoError
  DetectContentType : List Nat → GoString
  filetypeGet : List Nat → GoString × Option GoError
  IsSVGImage : List Nat → Bool
  IsImageMimeTypeSupported : GoString → Bool
  BimgOptions : O → B
  Resize : List Nat → B → Call (List Nat × Option GoError)
  DetermineImageType : List Nat → Call Int

/-- The body of `Process`, before its deferred function runs. -/
def Process.body {X O B : Type} (env : Env X O B) (buf : List Nat) (opts : B) :
    Call (Image × Option GoError) :=
  match env.Resize buf opts with
  | .panic r => .panic r
  | .ret (_, some err) => .ret (Image.empty, some err)
  | .ret (buf1, none) =>
    match env.DetermineImageType buf1 with
    | .panic r => .panic r
    | .ret t => .ret ({ Body := buf1, Mime := GetImageMimeType t }, none)

/-- The deferred function of `Process` when the body panicked and `recover()`
gives `r`; `out` and `err` are the named results at that moment.  When `r` is
nil the guard `r != nil` fails and nothing is assigned; otherwise `err` is set
by the dynamic type of `r` and `out` to `Image{}`. -/
def Process.recovered (r : PanicValue) (out : Image) (err : Option GoError) :
    Image × Option GoError :=
  match r with
  | .nil => (out, err)
  | .error value => (Image.empty, some value)
  | .string value => (Image.empty, some (GoError.New value))
  | .other _ => (Image.empty, some (GoError.New (utf8 "libvips internal error")))

/-- The function `Process` of `image.go`: the results after the deferred
function has run.  After a return `recover()` gives nil and the results stay
as returned.  At both calls that can panic the named results still hold
`Image{}` and a nil error: `err` is not yet assigned when `bimg.Resize`
panics, and was found nil before `bimg.DetermineImageType` is called. -/
def Process {X O B : Type} (env : Env X O B) (buf : List Nat) (opts : B) :
    Image × Option GoError :=
  match Process.body env buf opts with
  | .ret res => res
  | .panic r => Process.recovered r Image.empty none

/-- Lines 53 to 67 of `ProcessImage`: the MIME type inferred for the buffer in
three stages. -/
def resolveMimeType {X O B : Type} (env : Env X O B) (buf : List Nat) : GoString :=
  let mimeType := env.DetectContentType buf
  let mimeType :=
    if mimeType = utf8 "application/octet-stream" then
      match env.filetypeGet buf with
      | (value, none) => if value ≠ [] then value else mimeType
      | (_, some _) => mimeType
    else mimeType
  if Contains mimeType (utf8 "text/plain") ∧ buf.length > 8 ∧ env.IsSVGImage buf then
    utf8 "image/svg+xml"
  else mimeType

/-- What a call of `ProcessImage` leaves: the resource, the error returned,
and the calls of `Process` (the engine) it made, with their arguments. -/
structure Outcome (X B : Type) where
  resource : Resource X
  err : Option GoError
  engineCalls : List (List Nat × B)

/-- The function `ProcessImage` of `image.go`. -/
def ProcessImage {X O B : Type} (env : Env X O B) (resource : Resource X) (options : O) :
    Outcome X B :=
  match env.Read resource with
  | (resource1, _, some err) => { resource := resource1, err := some err, engineCalls := [] }
  | (resource1, buf, none) =>
    let mimeType := resolveMimeType env buf
    if env.IsImageMimeTypeSupported mimeType = false then
      { resource := resource1
        err := some (.New (utf8 "MimeType " ++ mimeType ++ utf8 " is not supported"))
        engineCalls := [] }
    else
      match Process env buf (env.BimgOptions options) with
      | (_, some err) =>
        { resource := resource1, err := some err, engineCalls := [(buf, env.BimgOptions options)] }
      | (img, none) =>
        { resource := { resource1 with MimeType := img.Mime, Body := img.Body }
          err := none
          engineCalls := [(buf, env.BimgOptions options)] }

/-! ## Decimal digit strings -/

/-- The number written by the decimal digits `ds`, continuing from `n`. -/
def decVal (n : Nat) (ds : GoString) : Nat := ds.foldl (fun a c => a * 10 + (c - 48)) n

/-! ## Colors: the parts of `parseColor` named for the statements -/

/-- Lines 140 to 146 of `parseColor`: the text handed to `hex.DecodeString`,
that is `val` without one leading `#`, each byte written twice when three
bytes remain. -/
def hexText (val : GoString) : GoString :=
  let val1 := if HasPrefix val (utf8 "#") then ReplaceFirstWithEmpty val 35 else val
  match val1 with
  | [a, b, c] => fmtC a ++ fmtC a ++ fmtC b ++ fmtC b ++ fmtC c ++ fmtC c
  | _ => val1

/-- The remainder of `val` after one optional leading `#` is removed. -/
def stripHash (val : GoString) : GoString :=
  match val with
  | c :: rest => if c = 35 then rest else c :: rest
  | [] => []

/-- The value of a hexadecimal digit, 0 for any other byte. -/
def hexVal (c : Nat) : Nat := (fromHexChar c).getD 0

/-- Whether a byte is a decimal digit. -/
def isDigit (c : Nat) : Bool := decide (48 ≤ c ∧ c ≤ 57)

/-- Whether a text is an unsigned decimal numeral: one or more decimal digits. -/
def isNumeral (t : GoString) : Bool := !t.isEmpty && t.all isDigit

/-- One component of the comma form as the specification words it:
`min(n, 255)` for an unsigned decimal numeral of value `n`, and 0 for any
other text. -/
def claimedComponent (t : GoString) : Nat :=
  if isNumeral t then min (decVal 0 t) 255 else 0

/-- One component of the comma form as amended: `min(n, 255)` for an unsigned
decimal numeral of value `n`; 255 for a text that is not a numeral but starts
with decimal digits that write a number above 255; 0 for any other text. -/
def colorComponent (t : GoString) : Nat :=
  if isNumeral t then min (decVal 0 t) 255
  else if 255 < decVal 0 (t.takeWhile isDigit) then 255
  else 0

/-! ## The options record in closed form -/

/-- The pairs that the loop of `ParseParams` stores in `params`, in the order
of `allowedParams`, when `parseColor` returns the slice `bg`. -/
def paramsMap {Fit : Type} (tb : Tables Fit) (arch : Arch) (query : GoString → List GoString)
    (bg : List Nat) : List (GoString × Value Fit) :=
  [ (utf8 "or", .Angle (parseOrientation tb (Get query (utf8 "or")))),
    (utf8 "w", .int (parseInt arch (Get query (utf8 "w")))),
    (utf8 "h", .int (parseInt arch (Get query (utf8 "h")))),
    (utf8 "fit", .FitType (parseFit tb (Get query (utf8 "fit")))),
    (utf8 "dpr", .float64 (parseFloat (Get query (utf8 "dpr")))),
    (utf8 "bri", .int (parseInt arch (Get query (utf8 "bri")))),
    (utf8 "con", .int (parseInt arch (Get query (utf8 "con")))),
    (utf8 "gam", .float64 (parseFloat (Get query (utf8 "gam")))),
    (utf8 "sharp", .int (parseInt arch (Get query (utf8 "sharp")))),
    (utf8 "blur", .int (parseInt arch (Get query (utf8 "blur")))),
    (utf8 "pixel", .int (parseInt arch (Get query (utf8 "pixel")))),
    (utf8 "bg", .uint8s bg),
    (utf8 "q", .int (parseInt arch (Get query (utf8 "q")))),
    (utf8 "fm", .ImageType (parseFormat tb (Get query (utf8 "fm")))),
    (utf8 "crop", .CropType (parseCrop (Get query (utf8 "crop")))) ]

/-- The record that `mapImageParams` assembles from those pairs: each field
is the parser of its kind applied to the first value of its key. -/
def optionsOf {Fit : Type} (tb : Tables Fit) (arch : Arch) (query : GoString → List GoString)
    (bg : List Nat) : Options Fit :=
  { Width := parseInt arch (Get query (utf8 "w"))
    Height := parseInt arch (Get query (utf8 "h"))
    DPR := parseFloat (Get query (utf8 "dpr"))
    Quality := parseInt arch (Get query (utf8 "q"))
    Format := parseFormat tb (Get query (utf8 "fm"))
    Orientation := parseOrientation tb (Get query (utf8 "or"))
    Fit := parseFit tb (Get query (utf8 "fit"))
    Crop := parseCrop (Get query (utf8 "crop"))
    Background := bg
    Brightness := parseInt arch (Get query (utf8 "bri"))
    Contrast := parseInt arch (Get query (utf8 "con"))
    Gamma := parseFloat (Get query (utf8 "gam"))
    Sharpen := parseInt arch (Get query (utf8 "sharp"))
    Blur := parseInt arch (Get query (utf8 "blur")) }

/-- The function `ParseParams` with the entries of `allowedParams` visited in
the order `order` (Go leaves the iteration order of a map unspecified). -/
def ParseParamsIn {Fit : Type} (tb : Tables Fit) (arch : Arch)
    (query : GoString → List GoString) (order : List (GoString × GoString)) :
    Except ParamsPanic (Options Fit) :=
  match parseAll tb arch query order with
  | .error p => .error p
  | .ok params => mapImageParams params

/-- The empty query: no key has a value. -/
def emptyQuery : GoString → List GoString := fun _ => []

/-! ## Sample collaborators -/

/-- A color table without entries. -/
def noColors : GoString → Option (List Nat) := fun _ => none

/-- Tables in which every lookup misses. -/
def emptyTables : Tables Nat :=
  { colorsToRGB := noColors, orientationToType := fun _ => none, fitToType := fun _ => none,
    FitContain := 0, ExtensionToType := fun _ => 0 }

/-- The query `?w=inf`. -/
def queryWidthInf : GoString → List GoString :=
  fun key => if key = utf8 "w" then [utf8 "inf"] else []

/-- The query `?w=inf&pixel=9&x=1&w=2`. -/
def queryWidthInfPixel : GoString → List GoString :=
  fun key =>
    if key = utf8 "w" then [utf8 "inf", utf8 "2"]
    else if key = utf8 "pixel" then [utf8 "9"]
    else if key = utf8 "x" then [utf8 "1"]
    else []

/-- The sentinel `CropType{-1, -1, -1, -1}`. -/
def cropSentinel : CropType := { Width := -1, Height := -1, X := -1, Y := -1 }

/-- An engine whose `Resize` panics with the string `"vips: out of memory"` on
every input; the sniffer answers `image/png`, which is supported. -/
def panickingEnv : Env Unit Unit Unit :=
  { Read := fun r => (r, r.Body, none)
    DetectContentType := fun _ => utf8 "image/png"
    filetypeGet := fun _ => ([], none)
    IsSVGImage := fun _ => false
    IsImageMimeTypeSupported := fun m => decide (m = utf8 "image/png")
    BimgOptions := fun o => o
    Resize := fun _ _ => .panic (.string (utf8 "vips: out of memory"))
    DetermineImageType := fun _ => .ret bimg.PNG }

/-- An engine that returns its input; the sniffer finds nothing, so the type
stays `application/octet-stream`, which is not supported. -/
def octetEnv : Env Unit Unit Unit :=
  { Read := fun r => (r, r.Body, none)
    DetectContentType := fun _ => utf8 "application/octet-stream"
    filetypeGet := fun _ => ([], none)
    IsSVGImage := fun _ => false
    IsImageMimeTypeSupported := fun m => decide (m = utf8 "image/png")
    BimgOptions := fun o => o
    Resize := fun buf _ => .ret (buf, none)
    DetermineImageType := fun _ => .ret bimg.PNG }

/-- An engine whose `Resize` panics with the nil value on every input; the
sniffer answers `image/png`, which is supported. -/
def nilPanicEnv : Env Unit Unit Unit :=
  { Read := fun r => (r, r.Body, none)
    DetectContentType := fun _ => utf8 "image/png"
    filetypeGet := fun _ => ([], none)
    IsSVGImage := fun _ => false
    IsImageMimeTypeSupported := fun m => decide (m = utf8 "image/png")
    BimgOptions := fun o => o
    Resize := fun _ _ => .panic .nil
    DetermineImageType := fun _ => .ret bimg.PNG }

/-- An engine that returns the bytes `[9, 9]` and detects WEBP on them; the
sniffer answers `image/png`, which is supported. -/
def workingEnv : Env Unit Unit Unit :=
  { Read := fun r => (r, r.Body, none)
    DetectContentType := fun _ => utf8 "image/png"
    filetypeGet := fun _ => ([], none)
    IsSVGImage := fun _ => false
    IsImageMimeTypeSupported := fun m => decide (m = utf8 "image/png")
    BimgOptions := fun o => o
    Resize := fun _ _ => .ret ([9, 9], none)
    DetermineImageType := fun _ => .ret bimg.WEBP }

/-- A table whose only key is `#ff0000`. -/
def hashKeyTable : GoString → Option (List Nat) :=
  fun key => if key = utf8 "#ff0000" then some [1, 2, 3] else none

/-- A resource holding three bytes. -/
def sampleResource : Resource Unit := { Body := [1, 2, 3], MimeType := utf8 "text/x", rest := () }

/-! ## Theorems -/

/-- C1 (the code breaks it): when `ff`, `#` and `ffff` are not color names,
`parseColor` ends in a run-time panic on each of them: the hex string decodes
without error to fewer than three bytes, and the accesses `d[1]`, `d[0]` and
`d[2]` are out of range. -/
theorem parseColor_short_hex_panics (colorsToRGB : GoString → Option (List Nat))
    (h1 : colorsToRGB (utf8 "ff") = none) (h2 : colorsToRGB (utf8 "#") = none)
    (h3 : colorsToRGB (utf8 "ffff") = none) :
    parseColor colorsToRGB (utf8 "ff") = .error (.indexOutOfRange 1 1) ∧
      parseColor colorsToRGB (utf8 "#") = .error (.indexOutOfRange 0 0) ∧
      parseColor colorsToRGB (utf8 "ffff") = .error (.indexOutOfRange 2 2) := by
  have n1 : utf8 "ff" ≠ [] := by decide
  have n2 : utf8 "#" ≠ [] := by decide
  have n3 : utf8 "ffff" ≠ [] := by decide
  refine ⟨?_, ?_, ?_⟩
  · simp only [parseColor, n1, if_false, h1]
    rfl
  · simp only [parseColor, n2, if_false, h2]
    rfl
  · simp only [parseColor, n3, if_false, h3]
    rfl

/-- Witness of C1: the empty color table. -/
theorem parseColor_short_hex_panics_witness :
    (noColors (utf8 "ff") = none ∧ noColors (utf8 "#") = none ∧
      noColors (utf8 "ffff") = none) ∧
    (parseColor noColors (utf8 "ff") = .error (.indexOutOfRange 1 1) ∧
      parseColor noColors (utf8 "#") = .error (.indexOutOfRange 0 0) ∧
      parseColor noColors (utf8 "ffff") = .error (.indexOutOfRange 2 2)) :=
  ⟨⟨rfl, rfl, rfl⟩, parseColor_short_hex_panics noColors rfl rfl rfl⟩

/-- C2 as stated fails: `10,20,x,0` has four parts, its third part does not
parse, and `parseCrop` does not return the full sentinel. -/
theorem parseCrop_partial_failure_counterexample :
    ¬ ∀ val : GoString, (Split val 44).length = 4 →
        (∃ p ∈ Split val 44, (Atoi p).2 ≠ none) → parseCrop val = cropSentinel := by
  intro h
  have h1 := h (utf8 "10,20,x,0") (by decide) ⟨utf8 "x", by decide, by decide⟩
  revert h1
  decide

/-- C2 (amended): when `val` splits on `,` into exactly four parts, each field
of `parseCrop val` is the integer of its own part when `strconv.Atoi` accepts
the part, and `-1` when it does not; the other fields are not reset. -/
theorem parseCrop_fieldwise (val p0 p1 p2 p3 : GoString)
    (h : Split val 44 = [p0, p1, p2, p3]) :
    parseCrop val =
      { Width := if (Atoi p0).2 = none then (Atoi p0).1 else -1
        Height := if (Atoi p1).2 = none then (Atoi p1).1 else -1
        X := if (Atoi p2).2 = none then (Atoi p2).1 else -1
        Y := if (Atoi p3).2 = none then (Atoi p3).1 else -1 } := by
  have key : ∀ p : GoString,
      atoiOrMinusOne p = if (Atoi p).2 = none then (Atoi p).1 else -1 := by
    intro p
    unfold atoiOrMinusOne
    rcases hp : Atoi p with ⟨v, _ | e⟩ <;> simp
  simp only [parseCrop, h, key]

/-- Witness of C2 (amended): `10,20,x,0` gives `{10, 20, -1, 0}`. -/
theorem parseCrop_fieldwise_witness :
    Split (utf8 "10,20,x,0") 44 = [utf8 "10", utf8 "20", utf8 "x", utf8 "0"] ∧
      parseCrop (utf8 "10,20,x,0") =
        { Width := if (Atoi (utf8 "10")).2 = none then (Atoi (utf8 "10")).1 else -1
          Height := if (Atoi (utf8 "20")).2 = none then (Atoi (utf8 "20")).1 else -1
          X := if (Atoi (utf8 "x")).2 = none then (Atoi (utf8 "x")).1 else -1
          Y := if (Atoi (utf8 "0")).2 = none then (Atoi (utf8 "0")).1 else -1 } :=
  ⟨by decide, parseCrop_fieldwise _ _ _ _ _ (by decide)⟩

/-- C3: a value that does not split on `,` into exactly four parts gives the
sentinel `{-1, -1, -1, -1}`. -/
theorem parseCrop_arity_mismatch (val : GoString) (h : (Split val 44).length ≠ 4) :
    parseCrop val = { Width := -1, Height := -1, X := -1, Y := -1 } := by
  unfold parseCrop
  split
  · rename_i heq
    rw [heq] at h
    simp at h
  · rfl

/-- Witness of C3: the three-part value `1,2,3`. -/
theorem parseCrop_arity_mismatch_witness :
    (Split (utf8 "1,2,3") 44).length ≠ 4 ∧
      parseCrop (utf8 "1,2,3") = { Width := -1, Height := -1, X := -1, Y := -1 } :=
  ⟨by decide, parseCrop_arity_mismatch (utf8 "1,2,3") (by decide)⟩

/-! ### Round trip of the decimal rendering -/

theorem natDigits_digit (fuel n : Nat) : ∀ c ∈ natDigits fuel n, 48 ≤ c ∧ c ≤ 57 := by
  induction fuel generalizing n with
  | zero =>
    intro c hc
    simp only [natDigits, List.mem_singleton] at hc
    omega
  | succ k ih =>
    intro c hc
    unfold natDigits at hc
    split at hc
    · simp only [List.mem_singleton] at hc
      omega
    · rcases List.mem_append.1 hc with h | h
      · exact ih _ c h
      · simp only [List.mem_singleton] at h
        omega

theorem natDigits_ne_nil (fuel n : Nat) : natDigits fuel n ≠ [] := by
  cases fuel with
  | zero => simp [natDigits]
  | succ k =>
    unfold natDigits
    split <;> simp

theorem decVal_append (n : Nat) (xs : GoString) (c : Nat) :
    decVal n (xs ++ [c]) = decVal n xs * 10 + (c - 48) := by
  simp [decVal, List.foldl_append]

theorem natDigits_val (fuel n : Nat) (h : n ≤ fuel) : decVal 0 (natDigits fuel n) = n := by
  induction fuel generalizing n with
  | zero =>
    have : n = 0 := by omega
    subst this
    rfl
  | succ k ih =>
    unfold natDigits
    split
    · simp [decVal]
    · rw [decVal_append, ih (n / 10) (by omega)]
      omega

theorem le_decVal (n : Nat) (ds : GoString) : n ≤ decVal n ds := by
  induction ds generalizing n with
  | nil => simp [decVal]
  | cons c cs ih =>
    have := ih (n * 10 + (c - 48))
    simp only [decVal, List.foldl_cons] at this ⊢
    omega

theorem atoiFast_digits (n : Nat) (ds : GoString) (hd : ∀ c ∈ ds, 48 ≤ c ∧ c ≤ 57) :
    atoiFast n ds = some (decVal n ds) := by
  induction ds generalizing n with
  | nil => rfl
  | cons c cs ih =>
    have hc := hd c (List.mem_cons_self _ _)
    simp only [atoiFast, hc, and_self, if_true]
    rw [ih _ (fun d hdm => hd d (List.mem_cons_of_mem _ hdm))]
    rfl

theorem parseUintLoop_digits (maxVal n : Nat) (ds : GoString)
    (hd : ∀ c ∈ ds, 48 ≤ c ∧ c ≤ 57) (hmax : maxVal < 2 ^ 64) (hv : decVal n ds ≤ maxVal) :
    parseUintLoop maxVal n ds = (decVal n ds, none) := by
  induction ds generalizing n with
  | nil => rfl
  | cons c cs ih =>
    have hc := hd c (List.mem_cons_self _ _)
    have hv1 : decVal (n * 10 + (c - 48)) cs ≤ maxVal := by
      simpa [decVal] using hv
    have hle := le_decVal (n * 10 + (c - 48)) cs
    have hlt : n * 10 + (c - 48) < 2 ^ 64 := by omega
    have hmod : (n * 10 + (c - 48)) % 2 ^ 64 = n * 10 + (c - 48) := Nat.mod_eq_of_lt hlt
    have h1 : ¬ n ≥ (2 ^ 64 - 1) / 10 + 1 := by
      norm_num at hlt ⊢
      omega
    have h2 : ¬ ((n * 10 + (c - 48)) < n * 10 ∨ (n * 10 + (c - 48)) > maxVal) := by omega
    unfold parseUintLoop
    simp only [hc, and_self, if_true, h1, if_false, hmod, h2]
    rw [ih _ (fun d hdm => hd d (List.mem_cons_of_mem _ hdm)) hv1]
    rfl

theorem Atoi_digits (ds : GoString) (hd : ∀ c ∈ ds, 48 ≤ c ∧ c ≤ 57) (hne : ds ≠ [])
    (hv : decVal 0 ds < 2 ^ 63) : Atoi ds = (((decVal 0 ds : Nat) : Int), none) := by
  obtain ⟨c, cs, rfl⟩ := List.exists_cons_of_ne_nil hne
  have hc := hd c (List.mem_cons_self _ _)
  have h45 : c ≠ 45 := by omega
  have h43 : c ≠ 43 := by omega
  unfold Atoi
  split
  · simp [h45, h43, atoiFast_digits 0 (c :: cs) hd]
  · have hp : ParseUint (c :: cs) IntSize = (decVal 0 (c :: cs), none) := by
      unfold ParseUint
      simp only [reduceCtorEq, if_false]
      exact parseUintLoop_digits _ 0 _ hd (by norm_num [IntSize]) (by norm_num [IntSize]; omega)
    unfold ParseInt
    simp only [h45, h43, or_self, if_false, hp, decide_False]
    have : ¬ (decVal 0 (c :: cs) ≥ 2 ^ (IntSize - 1)) := by norm_num [IntSize]; omega
    simp [this]

theorem Atoi_neg_digits (ds : GoString) (hd : ∀ c ∈ ds, 48 ≤ c ∧ c ≤ 57) (hne : ds ≠ [])
    (hv : decVal 0 ds ≤ 2 ^ 63) :
    Atoi (45 :: ds) = (-((decVal 0 ds : Nat) : Int), none) := by
  unfold Atoi
  split
  · have : ¬ ds.length < 1 := by
      cases ds with
      | nil => exact absurd rfl hne
      | cons => simp
    simp [this, atoiFast_digits 0 ds hd]
  · have hp : ParseUint ds IntSize = (decVal 0 ds, none) := by
      unfold ParseUint
      simp only [hne, if_false]
      exact parseUintLoop_digits _ 0 _ hd (by norm_num [IntSize]) (by norm_num [IntSize]; omega)
    unfold ParseInt
    simp only [true_or, or_true, if_true, hp, decide_True]
    have : ¬ (decVal 0 ds > 2 ^ (IntSize - 1)) := by norm_num [IntSize]; omega
    simp [this]

theorem Atoi_Itoa (i : Int) (hlo : -(2 ^ 63) ≤ i) (hhi : i < 2 ^ 63) :
    Atoi (Itoa i) = (i, none) := by
  have hd := natDigits_digit i.natAbs i.natAbs
  have hne := natDigits_ne_nil i.natAbs i.natAbs
  have hval := natDigits_val i.natAbs i.natAbs (le_refl _)
  unfold Itoa
  split
  · rw [Atoi_neg_digits _ hd hne (by rw [hval]; omega), hval]
    congr 1
    omega
  · rw [Atoi_digits _ hd hne (by rw [hval]; omega), hval]
    congr 1
    omega

theorem Itoa_no_comma (i : Int) : ∀ c ∈ Itoa i, c ≠ 44 := by
  intro c hc
  unfold Itoa at hc
  split at hc
  · rcases List.mem_cons.1 hc with h | h
    · omega
    · have := natDigits_digit _ _ c h
      omega
  · have := natDigits_digit _ _ c hc
    omega

theorem Split_no_sep (a : GoString) (sep : Nat) (h : ∀ c ∈ a, c ≠ sep) : Split a sep = [a] := by
  induction a with
  | nil => rfl
  | cons c cs ih =>
    have hc := h c (List.mem_cons_self _ _)
    unfold Split
    simp only [hc, if_false]
    rw [ih (fun d hd => h d (List.mem_cons_of_mem _ hd))]

theorem Split_append_sep (a rest : GoString) (sep : Nat) (h : ∀ c ∈ a, c ≠ sep) :
    Split (a ++ sep :: rest) sep = a :: Split rest sep := by
  induction a with
  | nil => simp [Split]
  | cons c cs ih =>
    have hc := h c (List.mem_cons_self _ _)
    rw [List.cons_append]
    conv_lhs => unfold Split
    simp only [hc, if_false]
    rw [ih (fun d hd => h d (List.mem_cons_of_mem _ hd))]

/-- C4: for integers `w`, `h`, `x`, `y` in the range of the 64-bit `int`,
`parseCrop` applied to their decimal renderings joined by `,` returns
`CropType{w, h, x, y}`. -/
theorem parseCrop_roundtrip (w h x y : Int)
    (hw : -(2 ^ 63) ≤ w ∧ w < 2 ^ 63) (hh : -(2 ^ 63) ≤ h ∧ h < 2 ^ 63)
    (hx : -(2 ^ 63) ≤ x ∧ x < 2 ^ 63) (hy : -(2 ^ 63) ≤ y ∧ y < 2 ^ 63) :
    parseCrop (Itoa w ++ 44 :: (Itoa h ++ 44 :: (Itoa x ++ 44 :: Itoa y))) =
      { Width := w, Height := h, X := x, Y := y } := by
  have hs : Split (Itoa w ++ 44 :: (Itoa h ++ 44 :: (Itoa x ++ 44 :: Itoa y))) 44 =
      [Itoa w, Itoa h, Itoa x, Itoa y] := by
    rw [Split_append_sep _ _ _ (Itoa_no_comma w), Split_append_sep _ _ _ (Itoa_no_comma h),
      Split_append_sep _ _ _ (Itoa_no_comma x), Split_no_sep _ _ (Itoa_no_comma y)]
  simp only [parseCrop, hs, atoiOrMinusOne, Atoi_Itoa w hw.1 hw.2, Atoi_Itoa h hh.1 hh.2,
    Atoi_Itoa x hx.1 hx.2, Atoi_Itoa y hy.1 hy.2]

/-- Witness of C4: `10,20,0,0` gives `{10, 20, 0, 0}`. -/
theorem parseCrop_roundtrip_witness :
    ((-(2 ^ 63) ≤ (10 : Int) ∧ (10 : Int) < 2 ^ 63) ∧ (-(2 ^ 63) ≤ (20 : Int) ∧ (20 : Int) < 2 ^ 63) ∧
      (-(2 ^ 63) ≤ (0 : Int) ∧ (0 : Int) < 2 ^ 63)) ∧
    Itoa 10 ++ 44 :: (Itoa 20 ++ 44 :: (Itoa 0 ++ 44 :: Itoa 0)) = utf8 "10,20,0,0" ∧
    parseCrop (Itoa 10 ++ 44 :: (Itoa 20 ++ 44 :: (Itoa 0 ++ 44 :: Itoa 0))) =
      { Width := 10, Height := 20, X := 0, Y := 0 } :=
  ⟨⟨by decide, by decide, by decide⟩, by decide,
    parseCrop_roundtrip 10 20 0 0 (by decide) (by decide) (by decide) (by decide)⟩

/-- C5 as stated fails: when `bimg.Resize` panics with the nil value,
`Process` contains the panic but returns a nil error. -/
theorem Process_nil_panic_counterexample :
    ¬ ∀ (env : Env Unit Unit Unit) (buf : List Nat) (opts : Unit) (r : PanicValue),
        env.Resize buf opts = .panic r → (Process env buf opts).2 ≠ none := by
  intro h
  exact h nilPanicEnv [1, 2, 3] () .nil rfl rfl

/-- C5 (amended): when `bimg.Resize`, or the type detection on its output,
panics with a value `r` that is not nil, `Process` returns `Image{}` and a
non-nil error: `r` itself when `r` is an error, an error with message `r` when
`r` is a string, and the fixed message `libvips internal error` otherwise. -/
theorem Process_contains_panic {X O B : Type} (env : Env X O B) (buf : List Nat) (opts : B)
    (r : PanicValue) (hr : r ≠ .nil)
    (h : env.Resize buf opts = .panic r ∨
      ∃ buf1, env.Resize buf opts = .ret (buf1, none) ∧
        env.DetermineImageType buf1 = .panic r) :
    (Process env buf opts).1 = Image.empty ∧
      (Process env buf opts).2 ≠ none ∧
      (∀ e, r = .error e → (Process env buf opts).2 = some e) ∧
      (∀ msg, r = .string msg → (Process env buf opts).2 = some (.New msg)) ∧
      (∀ id, r = .other id →
        (Process env buf opts).2 = some (.New (utf8 "libvips internal error"))) := by
  have hbody : Process.body env buf opts = .panic r := by
    rcases h with h | ⟨buf1, h1, h2⟩
    · simp [Process.body, h]
    · simp [Process.body, h1, h2]
  have hP : Process env buf opts = Process.recovered r Image.empty none := by
    simp [Process, hbody]
  rw [hP]
  cases r with
  | nil => exact absurd rfl hr
  | error e => simp [Process.recovered]
  | string msg => simp [Process.recovered]
  | other id => simp [Process.recovered]

/-- Witness of C5 (amended): an engine whose `Resize` panics with a string. -/
theorem Process_contains_panic_witness :
    (PanicValue.string (utf8 "vips: out of memory") ≠ .nil ∧
      (panickingEnv.Resize [1, 2, 3] () = .panic (.string (utf8 "vips: out of memory")) ∨
        ∃ buf1, panickingEnv.Resize [1, 2, 3] () = .ret (buf1, none) ∧
          panickingEnv.DetermineImageType buf1 =
            .panic (.string (utf8 "vips: out of memory")))) ∧
    ((Process panickingEnv [1, 2, 3] ()).1 = Image.empty ∧
      (Process panickingEnv [1, 2, 3] ()).2 ≠ none ∧
      (∀ e, PanicValue.string (utf8 "vips: out of memory") = .error e →
        (Process panickingEnv [1, 2, 3] ()).2 = some e) ∧
      (∀ msg, PanicValue.string (utf8 "vips: out of memory") = .string msg →
        (Process panickingEnv [1, 2, 3] ()).2 = some (.New msg)) ∧
      (∀ id, PanicValue.string (utf8 "vips: out of memory") = .other id →
        (Process panickingEnv [1, 2, 3] ()).2 = some (.New (utf8 "libvips internal error")))) :=
  ⟨⟨by decide, Or.inl rfl⟩,
    Process_contains_panic panickingEnv [1, 2, 3] () _ (by decide) (Or.inl rfl)⟩

/-- C6 as stated fails: when `bimg.Resize` panics with the nil value,
`ProcessImage` returns nil although the engine gave no output, and the
resource is left with an empty body and an empty MIME type. -/
theorem ProcessImage_nil_panic_counterexample :
    ¬ ∀ (env : Env Unit Unit Unit) (resource : Resource Unit) (options : Unit),
        (ProcessImage env resource options).err = none →
        ∃ out t,
          env.Resize (env.Read resource).2.1 (env.BimgOptions options) = .ret (out, none) ∧
          env.DetermineImageType out = .ret t ∧
          (ProcessImage env resource options).resource =
            { Body := out, MimeType := GetImageMimeType t,
              rest := (env.Read resource).1.rest } := by
  intro h
  obtain ⟨out, t, h1, _, _⟩ := h nilPanicEnv sampleResource () rfl
  simp [nilPanicEnv] at h1

/-- C6 (amended): when `ProcessImage` returns an error, the resource is
exactly as `Read` left it; when it returns nil and neither engine call ended
in a panic with the nil value, `Read` gave a buffer without error, the engine
returned output bytes without error and detected a type on them, and the
resource holds those bytes and the MIME string of that type (its other state
as `Read` left it). -/
theorem ProcessImage_overwrites_on_success_only {X O B : Type} (env : Env X O B)
    (resource : Resource X) (options : O) :
    ((ProcessImage env resource options).err ≠ none →
      (ProcessImage env resource options).resource = (env.Read resource).1) ∧
    ((ProcessImage env resource options).err = none →
      env.Resize (env.Read resource).2.1 (env.BimgOptions options) ≠ .panic .nil →
      (∀ out, env.DetermineImageType out ≠ .panic .nil) →
      ∃ out t,
        env.Resize (env.Read resource).2.1 (env.BimgOptions options) = .ret (out, none) ∧
        env.DetermineImageType out = .ret t ∧
        (ProcessImage env resource options).resource =
          { Body := out, MimeType := GetImageMimeType t, rest := (env.Read resource).1.rest }) := by
  unfold ProcessImage
  rcases hR : env.Read resource with ⟨res1, buf, _ | e⟩
  · by_cases hs : env.IsImageMimeTypeSupported (resolveMimeType env buf) = false
    · simp [hs]
    · simp only [hs, if_false]
      unfold Process Process.body
      rcases hZ : env.Resize buf (env.BimgOptions options) with ⟨out, _ | e⟩ | r
      · rcases hD : env.DetermineImageType out with t | r
        · simp [hD]
        · cases r with
          | nil =>
            simp only [hD, Process.recovered]
            refine ⟨by simp, ?_⟩
            intro _ _ hnil
            exact absurd hD (hnil out)
          | error e => simp [hD, Process.recovered]
          | string msg => simp [hD, Process.recovered]
          | other id => simp [hD, Process.recovered]
      · simp
      · cases r with
        | nil => simp [Process.recovered]
        | error e => simp [Process.recovered]
        | string msg => simp [Process.recovered]
        | other id => simp [Process.recovered]
  · simp

/-- Witness of C6 (amended): with the panicking engine the call fails and the
resource is as `Read` left it; with the working engine the call returns nil
and the resource holds the output `[9, 9]` and `image/webp`. -/
theorem ProcessImage_overwrites_on_success_only_witness :
    ((ProcessImage panickingEnv sampleResource ()).err ≠ none ∧
      (ProcessImage panickingEnv sampleResource ()).resource =
        (panickingEnv.Read sampleResource).1) ∧
    (((ProcessImage workingEnv sampleResource ()).err = none ∧
        workingEnv.Resize (workingEnv.Read sampleResource).2.1 (workingEnv.BimgOptions ()) ≠
          .panic .nil ∧
        (∀ out, workingEnv.DetermineImageType out ≠ .panic .nil)) ∧
      (∃ out t,
        workingEnv.Resize (workingEnv.Read sampleResource).2.1 (workingEnv.BimgOptions ()) =
          .ret (out, none) ∧
        workingEnv.DetermineImageType out = .ret t ∧
        (ProcessImage workingEnv sampleResource ()).resource =
          { Body := out, MimeType := GetImageMimeType t,
            rest := (workingEnv.Read sampleResource).1.rest }) ∧
      (ProcessImage workingEnv sampleResource ()).resource.Body = [9, 9] ∧
      (ProcessImage workingEnv sampleResource ()).resource.MimeType = utf8 "image/webp") :=
  ⟨⟨by decide,
      (ProcessImage_overwrites_on_success_only panickingEnv sampleResource ()).1 (by decide)⟩,
    ⟨rfl, by simp [workingEnv], by simp [workingEnv]⟩,
    (ProcessImage_overwrites_on_success_only workingEnv sampleResource ()).2 rfl
      (by simp [workingEnv]) (by simp [workingEnv]),
    by decide, by decide⟩

/-- C7: when `Read` succeeds and the MIME type resolved for the buffer is not
supported, `ProcessImage` returns the error `MimeType <m> is not supported`
for that type `m`, and makes no call of `Process`. -/
theorem ProcessImage_rejects_unsupported {X O B : Type} (env : Env X O B)
    (resource : Resource X) (options : O)
    (hread : (env.Read resource).2.2 = none)
    (h : env.IsImageMimeTypeSupported (resolveMimeType env (env.Read resource).2.1) = false) :
    (ProcessImage env resource options).err =
        some (.New (utf8 "MimeType " ++ resolveMimeType env (env.Read resource).2.1 ++
          utf8 " is not supported")) ∧
      (ProcessImage env resource options).engineCalls = [] := by
  unfold ProcessImage
  rcases hR : env.Read resource with ⟨res1, buf, _ | e⟩
  · rw [hR] at h
    simp only at h
    simp [h]
  · rw [hR] at hread
    simp at hread

/-- Witness of C7: an unrecognised buffer resolves to the generic type and is
rejected. -/
theorem ProcessImage_rejects_unsupported_witness :
    ((octetEnv.Read sampleResource).2.2 = none ∧
      octetEnv.IsImageMimeTypeSupported
        (resolveMimeType octetEnv (octetEnv.Read sampleResource).2.1) = false) ∧
    ((ProcessImage octetEnv sampleResource ()).err =
        some (.New (utf8 "MimeType " ++
          resolveMimeType octetEnv (octetEnv.Read sampleResource).2.1 ++
          utf8 " is not supported")) ∧
      (ProcessImage octetEnv sampleResource ()).engineCalls = []) :=
  ⟨⟨rfl, by decide⟩,
    ProcessImage_rejects_unsupported octetEnv sampleResource () rfl (by decide)⟩

/-- C8: `GetImageMimeType` is the table PNG, WEBP, TIFF, GIF, SVG, PDF, and
every other code gives `image/jpeg`. -/
theorem GetImageMimeType_table :
    GetImageMimeType bimg.PNG = utf8 "image/png" ∧
    GetImageMimeType bimg.WEBP = utf8 "image/webp" ∧
    GetImageMimeType bimg.TIFF = utf8 "image/tiff" ∧
    GetImageMimeType bimg.GIF = utf8 "image/gif" ∧
    GetImageMimeType bimg.SVG = utf8 "image/svg+xml" ∧
    GetImageMimeType bimg.PDF = utf8 "application/pdf" ∧
    ∀ code : Int, code ≠ bimg.PNG → code ≠ bimg.WEBP → code ≠ bimg.TIFF →
      code ≠ bimg.GIF → code ≠ bimg.SVG → code ≠ bimg.PDF →
      GetImageMimeType code = utf8 "image/jpeg" := by
  refine ⟨by decide, by decide, by decide, by decide, by decide, by decide, ?_⟩
  intro code h1 h2 h3 h4 h5 h6
  simp [GetImageMimeType, h1, h2, h3, h4, h5, h6]

/-- Witness of C8: the codes JPEG and UNKNOWN fall to the default. -/
theorem GetImageMimeType_table_witness :
    GetImageMimeType bimg.JPEG = utf8 "image/jpeg" ∧
      GetImageMimeType bimg.UNKNOWN = utf8 "image/jpeg" :=
  ⟨GetImageMimeType_table.2.2.2.2.2.2 bimg.JPEG
      (by decide) (by decide) (by decide) (by decide) (by decide) (by decide),
    GetImageMimeType_table.2.2.2.2.2.2 bimg.UNKNOWN
      (by decide) (by decide) (by decide) (by decide) (by decide) (by decide)⟩

/-- C9 (the code breaks it): on amd64 `parseInt` gives `-2^63` for `inf`,
`NaN`, `1e30` and `1e400`, and `ParseParams` on the query `?w=inf` gives a
negative `Width`. -/
theorem parseInt_negative_on_amd64 :
    parseInt amd64 (utf8 "inf") = -9223372036854775808 ∧
    parseInt amd64 (utf8 "NaN") = -9223372036854775808 ∧
    parseInt amd64 (utf8 "1e30") = -9223372036854775808 ∧
    parseInt amd64 (utf8 "1e400") = -9223372036854775808 ∧
    (ParseParams emptyTables amd64 queryWidthInf).map (fun o => o.Width) =
      .ok (-9223372036854775808) := by
  refine ⟨by decide, by decide, ?_, ?_, by decide⟩
  · set_option maxRecDepth 100000 in decide
  · set_option exponentiation.threshold 2000 in
    set_option maxRecDepth 1000000 in
    decide

/-- C10: a string for which `strconv.ParseFloat` reports a syntax error gives
`0.0` from `parseFloat` and `0` from `parseInt`. -/
theorem parse_number_syntax_error (arch : Arch) (param : GoString)
    (h : (ParseFloat param).2 = some .ErrSyntax) :
    parseFloat param = F64.zero ∧ parseInt arch param = 0 := by
  have hv : (ParseFloat param).1 = F64.zero := by
    unfold ParseFloat at h ⊢
    rcases hs : special param with _ | ⟨f, n⟩
    · rw [hs] at h
      simp only at h ⊢
      rcases hr : readFloat param with _ | l
      · rfl
      · rw [hr] at h
        simp only at h ⊢
        by_cases hn : l.n ≠ param.length
        · simp [hn]
        · exfalso
          simp only [hn, if_false] at h
          unfold FloatLit.value at h
          revert h
          simp only
          split <;> simp
    · rw [hs] at h
      simp only at h ⊢
      by_cases hn : n ≠ param.length
      · simp [hn]
      · simp [hn] at h
  have hf : parseFloat param = F64.zero := by
    unfold parseFloat
    rw [hv]
    rfl
  refine ⟨hf, ?_⟩
  unfold parseInt
  rw [hf]
  have hfl : (F64.zero.add F64.half).Floor = .fin false 0 (-1074) := by
    set_option exponentiation.threshold 2000 in
    set_option maxRecDepth 100000 in
    decide
  rw [hfl]
  set_option exponentiation.threshold 2000 in
  simp [F64.toInt]

/-- Witness of C10: the string `abc`. -/
theorem parse_number_syntax_error_witness :
    (ParseFloat (utf8 "abc")).2 = some .ErrSyntax ∧
      (parseFloat (utf8 "abc") = F64.zero ∧ parseInt amd64 (utf8 "abc") = 0) :=
  ⟨by decide, parse_number_syntax_error amd64 (utf8 "abc") (by decide)⟩

/-! ### Colors -/

theorem Contains_byte (s : GoString) (c : Nat) : Contains s [c] = true ↔ c ∈ s := by
  induction s with
  | nil => simp [Contains]
  | cons a as ih =>
    simp only [Contains, Bool.or_eq_true, ih, List.mem_cons]
    constructor
    · rintro (h | h)
      · left
        simpa [List.isPrefixOf] using h
      · right
        exact h
    · rintro (h | h)
      · left
        simp [List.isPrefixOf, h]
      · right
        exact h

theorem utf8_comma : utf8 "," = [44] := by decide

theorem utf8_hash : utf8 "#" = [35] := by decide

theorem fromHexChar_range (c v : Nat) (h : fromHexChar c = some v) :
    ((48 ≤ c ∧ c ≤ 57) ∨ (97 ≤ c ∧ c ≤ 102) ∨ (65 ≤ c ∧ c ≤ 70)) ∧ v < 16 := by
  unfold fromHexChar at h
  split at h
  · simp only [Option.some.injEq] at h
    omega
  · split at h
    · simp only [Option.some.injEq] at h
      omega
    · split at h
      · simp only [Option.some.injEq] at h
        omega
      · simp at h

theorem fmtC_hex (c v : Nat) (h : fromHexChar c = some v) : fmtC c = [c] := by
  have := (fromHexChar_range c v h).1
  have hlt : c < 128 := by omega
  simp [fmtC, hlt]

theorem not_mem_of_Contains_false (val : GoString) (c : Nat) (h : Contains val [c] = false) :
    c ∉ val := by
  intro hm
  rw [(Contains_byte val c).2 hm] at h
  simp at h

/-- The hexadecimal branch of `parseColor`, reached by a value that is not
empty, not a color name and holds no comma. -/
theorem parseColor_hex_branch (colorsToRGB : GoString → Option (List Nat)) (val : GoString)
    (hne : val ≠ []) (hkey : colorsToRGB val = none)
    (hcomma : Contains val (utf8 ",") = false) :
    parseColor colorsToRGB val =
      (match DecodeString (hexText val) with
      | (_, some _) => .ok []
      | (d, none) => do
        let d0 ← index d 0
        let d1 ← index d 1
        let d2 ← index d 2
        pure [d0, d1, d2]) := by
  simp only [parseColor, hne, if_false, hkey, hcomma, Bool.false_eq_true, hexText]

theorem hexText_stripHash (val : GoString) :
    hexText val =
      (match stripHash val with
      | [a, b, c] => fmtC a ++ fmtC a ++ fmtC b ++ fmtC b ++ fmtC c ++ fmtC c
      | r => r) := by
  have h : (if HasPrefix val (utf8 "#") then ReplaceFirstWithEmpty val 35 else val) =
      stripHash val := by
    rw [utf8_hash]
    cases val with
    | nil => rfl
    | cons x xs =>
      by_cases hx : x = 35
      · subst hx
        simp [HasPrefix, ReplaceFirstWithEmpty, stripHash]
      · have hx2 : ¬ (35 = x) := fun h => hx h.symm
        simp [HasPrefix, stripHash, hx, hx2]
  unfold hexText
  simp only [h]
  generalize stripHash val = r
  rcases r with _ | ⟨a, _ | ⟨b, _ | ⟨c, _ | ⟨d, r⟩⟩⟩⟩ <;> rfl

theorem DecodeString_error : ∀ s : GoString,
    ((∃ c ∈ s, fromHexChar c = none) ∨ s.length % 2 = 1) → (DecodeString s).2 ≠ none
  | [], h => by simp at h
  | [p], _ => by
    unfold DecodeString
    split <;> simp
  | p :: q :: rest, h => by
    unfold DecodeString
    rcases hp : fromHexChar p with _ | a
    · simp
    · rcases hq : fromHexChar q with _ | b
      · simp
      · simp only
        apply DecodeString_error rest
        rcases h with ⟨c, hc, hcn⟩ | h
        · left
          simp only [List.mem_cons] at hc
          rcases hc with rfl | rfl | hc
          · rw [hp] at hcn
            simp at hcn
          · rw [hq] at hcn
            simp at hcn
          · exact ⟨c, hc, hcn⟩
        · right
          simp only [List.length_cons] at h
          omega

theorem DecodeString_hex_pair (p q : Nat) (rest : GoString) (a b : Nat)
    (hp : fromHexChar p = some a) (hq : fromHexChar q = some b) :
    DecodeString (p :: q :: rest) = ((a * 16 + b) :: (DecodeString rest).1, (DecodeString rest).2) := by
  conv_lhs => unfold DecodeString
  simp [hp, hq]

theorem DecodeString_ok : ∀ s : GoString,
    (∀ c ∈ s, fromHexChar c ≠ none) → s.length % 2 = 0 → (DecodeString s).2 = none
  | [], _, _ => rfl
  | [p], _, h => by simp at h
  | p :: q :: rest, hd, h => by
    obtain ⟨a, ha⟩ := Option.ne_none_iff_exists'.1 (hd p (by simp))
    obtain ⟨b, hb⟩ := Option.ne_none_iff_exists'.1 (hd q (by simp))
    rw [DecodeString_hex_pair p q rest a b ha hb]
    apply DecodeString_ok rest
    · intro c hc
      exact hd c (by simp [hc])
    · simp only [List.length_cons] at h
      omega

/-- C13 as stated fails: with a color table whose only key is `#ff0000`,
neither `f00` nor `#f00` is a key, yet `#ff0000` gives the table entry and
not `[255, 0, 0]`. -/
theorem parseColor_shorthand_counterexample :
    ¬ ∀ (colorsToRGB : GoString → Option (List Nat)) (a b c va vb vc : Nat),
        fromHexChar a = some va → fromHexChar b = some vb → fromHexChar c = some vc →
        colorsToRGB [a, b, c] = none → colorsToRGB [35, a, b, c] = none →
        parseColor colorsToRGB [a, b, c] = .ok [17 * va, 17 * vb, 17 * vc] ∧
          parseColor colorsToRGB [35, a, b, c] = .ok [17 * va, 17 * vb, 17 * vc] ∧
          parseColor colorsToRGB [35, a, a, b, b, c, c] = .ok [17 * va, 17 * vb, 17 * vc] := by
  intro h
  have h1 := (h hashKeyTable 102 48 48 15 0 0 (by decide) (by decide) (by decide)
    (by decide) (by decide)).2.2
  revert h1
  decide

/-- C13 (amended): for hexadecimal digits `a`, `b`, `c` of values `va`, `vb`,
`vc`, when none of the three spellings `abc`, `#abc` and `#aabbcc` is a color
name, all three parse to `[17*va, 17*vb, 17*vc]`. -/
theorem parseColor_shorthand (colorsToRGB : GoString → Option (List Nat))
    (a b c va vb vc : Nat)
    (ha : fromHexChar a = some va) (hb : fromHexChar b = some vb) (hc : fromHexChar c = some vc)
    (h1 : colorsToRGB [a, b, c] = none) (h2 : colorsToRGB [35, a, b, c] = none)
    (h3 : colorsToRGB [35, a, a, b, b, c, c] = none) :
    parseColor colorsToRGB [a, b, c] = .ok [17 * va, 17 * vb, 17 * vc] ∧
      parseColor colorsToRGB [35, a, b, c] = .ok [17 * va, 17 * vb, 17 * vc] ∧
      parseColor colorsToRGB [35, a, a, b, b, c, c] = .ok [17 * va, 17 * vb, 17 * vc] := by
  have ra := (fromHexChar_range a va ha).1
  have rb := (fromHexChar_range b vb hb).1
  have rc := (fromHexChar_range c vc hc).1
  have hdec : DecodeString [a, a, b, b, c, c] = ([17 * va, 17 * vb, 17 * vc], none) := by
    rw [DecodeString_hex_pair a a _ va va ha ha, DecodeString_hex_pair b b _ vb vb hb hb,
      DecodeString_hex_pair c c _ vc vc hc hc]
    simp only [DecodeString, Prod.mk.injEq, List.cons.injEq, and_true]
    omega
  have fa := fmtC_hex a va ha
  have fb := fmtC_hex b vb hb
  have fc := fmtC_hex c vc hc
  have nocomma : ∀ l : GoString, (∀ x ∈ l, x ≠ 44) → Contains l (utf8 ",") = false := by
    intro l hl
    rw [utf8_comma]
    rcases hcb : Contains l [44] with _ | _
    · rfl
    · exact absurd rfl (hl 44 ((Contains_byte l 44).1 hcb))
  have a35 : a ≠ 35 := by omega
  have t1 : hexText [a, b, c] = [a, a, b, b, c, c] := by
    rw [hexText_stripHash]
    simp [stripHash, a35, fa, fb, fc]
  have t2 : hexText [35, a, b, c] = [a, a, b, b, c, c] := by
    rw [hexText_stripHash]
    simp [stripHash, fa, fb, fc]
  have t3 : hexText [35, a, a, b, b, c, c] = [a, a, b, b, c, c] := by
    rw [hexText_stripHash]
    simp [stripHash]
  refine ⟨?_, ?_, ?_⟩
  · rw [parseColor_hex_branch _ _ (by simp) h1 (nocomma _ (by simp; omega)), t1, hdec]
    rfl
  · rw [parseColor_hex_branch _ _ (by simp) h2 (nocomma _ (by simp; omega)), t2, hdec]
    rfl
  · rw [parseColor_hex_branch _ _ (by simp) h3 (nocomma _ (by simp; omega)), t3, hdec]
    rfl

/-- Witness of C13 (amended): `f00`, `#f00` and `#ff0000` give `[255, 0, 0]`. -/
theorem parseColor_shorthand_witness :
    (fromHexChar 102 = some 15 ∧ fromHexChar 48 = some 0) ∧
    (parseColor noColors (utf8 "f00") = .ok [17 * 15, 17 * 0, 17 * 0] ∧
      parseColor noColors (utf8 "#f00") = .ok [17 * 15, 17 * 0, 17 * 0] ∧
      parseColor noColors (utf8 "#ff0000") = .ok [17 * 15, 17 * 0, 17 * 0]) :=
  ⟨⟨by decide, by decide⟩,
    parseColor_shorthand noColors 102 48 48 15 0 0 (by decide) (by decide) (by decide) rfl rfl rfl⟩

/-- C14: when `val` is not a color name, holds no comma, and the text left
after one optional leading `#` is removed (doubled when three bytes long)
holds a byte that is not a hexadecimal digit or has odd length, `parseColor`
returns the empty color. -/
theorem parseColor_decode_failure (colorsToRGB : GoString → Option (List Nat)) (val : GoString)
    (hkey : colorsToRGB val = none) (hcomma : Contains val (utf8 ",") = false)
    (hbad : (∃ c ∈ hexText val, fromHexChar c = none) ∨ (hexText val).length % 2 = 1) :
    parseColor colorsToRGB val = .ok [] := by
  by_cases hne : val = []
  · subst hne
    rfl
  · rw [parseColor_hex_branch colorsToRGB val hne hkey hcomma]
    have herr := DecodeString_error (hexText val) hbad
    rcases hd : DecodeString (hexText val) with ⟨d, _ | e⟩
    · rw [hd] at herr
      exact absurd rfl herr
    · rfl

/-- Witness of C14: `notacolor`. -/
theorem parseColor_decode_failure_witness :
    (noColors (utf8 "notacolor") = none ∧ Contains (utf8 "notacolor") (utf8 ",") = false ∧
      ((∃ c ∈ hexText (utf8 "notacolor"), fromHexChar c = none) ∨
        (hexText (utf8 "notacolor")).length % 2 = 1)) ∧
    parseColor noColors (utf8 "notacolor") = .ok [] :=
  ⟨⟨rfl, by decide, Or.inr (by decide)⟩,
    parseColor_decode_failure noColors (utf8 "notacolor") rfl (by decide) (Or.inr (by decide))⟩

/-- C20: a value that is not a color name, holds no comma, and whose text
after one optional leading `#` is six or more hexadecimal digits of even
number, parses to the first three decoded bytes; and every slice that
`parseColor` returns for a value that is not a color name has length 0 or 3. -/
theorem parseColor_long_hex_truncated :
    (∀ (colorsToRGB : GoString → Option (List Nat)) (val rest : GoString)
        (c0 c1 c2 c3 c4 c5 : Nat),
        colorsToRGB val = none → Contains val (utf8 ",") = false →
        stripHash val = c0 :: c1 :: c2 :: c3 :: c4 :: c5 :: rest →
        (∀ c ∈ stripHash val, fromHexChar c ≠ none) → (stripHash val).length % 2 = 0 →
        parseColor colorsToRGB val =
          .ok [hexVal c0 * 16 + hexVal c1, hexVal c2 * 16 + hexVal c3,
            hexVal c4 * 16 + hexVal c5]) ∧
    (∀ (colorsToRGB : GoString → Option (List Nat)) (val l : GoString),
        colorsToRGB val = none → parseColor colorsToRGB val = .ok l →
        l.length = 0 ∨ l.length = 3) := by
  constructor
  · intro colorsToRGB val rest c0 c1 c2 c3 c4 c5 hkey hcomma hrem hhex heven
    have hne : val ≠ [] := by
      intro h
      subst h
      simp [stripHash] at hrem
    have ht : hexText val = c0 :: c1 :: c2 :: c3 :: c4 :: c5 :: rest := by
      rw [hexText_stripHash, hrem]
    rw [hrem] at hhex heven
    have hv : ∀ c ∈ c0 :: c1 :: c2 :: c3 :: c4 :: c5 :: rest,
        fromHexChar c = some (hexVal c) := by
      intro c hc
      obtain ⟨v, hv⟩ := Option.ne_none_iff_exists'.1 (hhex c hc)
      simp [hexVal, hv]
    have hrest : (DecodeString rest).2 = none := by
      apply DecodeString_ok
      · intro c hc
        exact hhex c (by simp [hc])
      · simp only [List.length_cons] at heven
        omega
    rw [parseColor_hex_branch colorsToRGB val hne hkey hcomma, ht,
      DecodeString_hex_pair c0 c1 _ _ _ (hv c0 (by simp)) (hv c1 (by simp)),
      DecodeString_hex_pair c2 c3 _ _ _ (hv c2 (by simp)) (hv c3 (by simp)),
      DecodeString_hex_pair c4 c5 _ _ _ (hv c4 (by simp)) (hv c5 (by simp)), hrest]
    rfl
  · intro colorsToRGB val l hkey hres
    unfold parseColor at hres
    split at hres
    · simp only [Except.ok.injEq] at hres
      subst hres
      simp
    · rw [hkey] at hres
      simp only at hres
      split at hres
      · split at hres
        · simp only [Except.ok.injEq] at hres
          subst hres
          simp
        · rename_i hlen
          simp only [Except.ok.injEq] at hres
          subst hres
          right
          simpa using hlen
      · split at hres
        · simp only [Except.ok.injEq] at hres
          subst hres
          simp
        · rename_i d hd
          rcases h0 : index d 0 with e0 | d0
          · simp [h0, bind, Except.bind] at hres
          · rcases h1 : index d 1 with e1 | d1
            · simp [h0, h1, bind, Except.bind] at hres
            · rcases h2 : index d 2 with e2 | d2
              · simp [h0, h1, h2, bind, Except.bind] at hres
              · simp [h0, h1, h2, bind, Except.bind, pure, Except.pure] at hres
                subst hres
                simp

/-- Witness of C20: `#ff000080` gives `[255, 0, 0]`. -/
theorem parseColor_long_hex_truncated_witness :
    parseColor noColors (utf8 "#ff000080") =
      .ok [hexVal 102 * 16 + hexVal 102, hexVal 48 * 16 + hexVal 48,
        hexVal 48 * 16 + hexVal 48] ∧
    [hexVal 102 * 16 + hexVal 102, hexVal 48 * 16 + hexVal 48, hexVal 48 * 16 + hexVal 48] =
      [255, 0, 0] :=
  ⟨parseColor_long_hex_truncated.1 noColors (utf8 "#ff000080") (utf8 "80") 102 102 48 48 48 48
      rfl (by decide) (by decide) (by decide) (by decide),
    by decide⟩

/-! ### The comma form -/

theorem parseUintLoop_value (maxVal : Nat) (hmax : maxVal < 2 ^ 64) :
    ∀ (t : GoString) (n : Nat), n ≤ maxVal →
      (parseUintLoop maxVal n t).1 =
        if maxVal < decVal n (t.takeWhile isDigit) then maxVal
        else if t.dropWhile isDigit = [] then decVal n t else 0
  | [], n, hn => by
    simp only [parseUintLoop, List.takeWhile_nil, List.dropWhile_nil, decVal, List.foldl_nil]
    simp [Nat.not_lt.2 hn]
  | c :: cs, n, hn => by
    by_cases hc : 48 ≤ c ∧ c ≤ 57
    · have hd : isDigit c = true := by simp [isDigit, hc]
      have hstep : decVal n (c :: List.takeWhile isDigit cs) =
          decVal (n * 10 + (c - 48)) (List.takeWhile isDigit cs) := rfl
      have hstep2 : decVal n (c :: cs) = decVal (n * 10 + (c - 48)) cs := rfl
      simp only [List.takeWhile_cons, hd, if_true, List.dropWhile_cons, hstep, hstep2]
      have hle := le_decVal (n * 10 + (c - 48)) (List.takeWhile isDigit cs)
      unfold parseUintLoop
      simp only [hc, and_self, if_true]
      by_cases hover : maxVal < n * 10 + (c - 48)
      · have hbig : maxVal < decVal (n * 10 + (c - 48)) (List.takeWhile isDigit cs) := by omega
        rw [if_pos hbig]
        by_cases h1 : n ≥ (2 ^ 64 - 1) / 10 + 1
        · rw [if_pos h1]
        · rw [if_neg h1]
          have hor : (n * 10 + (c - 48)) % 2 ^ 64 < n * 10 ∨
              (n * 10 + (c - 48)) % 2 ^ 64 > maxVal := by
            by_cases hw : n * 10 + (c - 48) < 2 ^ 64
            · right
              rw [Nat.mod_eq_of_lt hw]
              exact hover
            · left
              have hsub : (n * 10 + (c - 48)) % 2 ^ 64 = n * 10 + (c - 48) - 2 ^ 64 := by
                rw [Nat.mod_eq_sub_mod (by omega)]
                apply Nat.mod_eq_of_lt
                norm_num at h1 ⊢
                omega
              rw [hsub]
              norm_num at hw ⊢
              omega
          simp only [hor, if_true]
      · have hfit : n * 10 + (c - 48) ≤ maxVal := by omega
        have hw : n * 10 + (c - 48) < 2 ^ 64 := by omega
        have h1 : ¬ n ≥ (2 ^ 64 - 1) / 10 + 1 := by
          norm_num at hw ⊢
          omega
        have h2 : ¬ ((n * 10 + (c - 48)) % 2 ^ 64 < n * 10 ∨
            (n * 10 + (c - 48)) % 2 ^ 64 > maxVal) := by
          rw [Nat.mod_eq_of_lt hw]
          omega
        rw [if_neg h1]
        simp only [h2, if_false]
        rw [Nat.mod_eq_of_lt hw]
        exact parseUintLoop_value maxVal hmax cs _ hfit
    · have hd : isDigit c = false := by simp [isDigit, hc]
      unfold parseUintLoop
      simp only [hc, if_false, List.takeWhile_cons, hd, List.dropWhile_cons, decVal,
        List.foldl_nil]
      simp [Nat.not_lt.2 hn]

theorem takeWhile_of_all (t : GoString) (h : t.all isDigit = true) :
    t.takeWhile isDigit = t ∧ t.dropWhile isDigit = [] := by
  induction t with
  | nil => simp
  | cons c cs ih =>
    simp only [List.all_cons, Bool.and_eq_true] at h
    simp [h.1, ih h.2]

theorem all_of_dropWhile_nil (t : GoString) (h : t.dropWhile isDigit = []) :
    t.all isDigit = true := by
  induction t with
  | nil => rfl
  | cons c cs ih =>
    rcases hc : isDigit c with _ | _
    · simp [List.dropWhile_cons, hc] at h
    · simp only [List.dropWhile_cons, hc, if_true] at h
      simp [hc, ih h]

theorem ParseUint_component (t : GoString) : min (ParseUint t 8).1 255 = colorComponent t := by
  unfold ParseUint colorComponent isNumeral
  by_cases ht : t = []
  · subst ht
    rfl
  · have hemp : t.isEmpty = false := by
      cases t with
      | nil => exact absurd rfl ht
      | cons => rfl
    have e8 : 2 ^ 8 - 1 = 255 := by norm_num
    have hv := parseUintLoop_value (2 ^ 8 - 1) (by norm_num) t 0 (by norm_num)
    rw [if_neg ht, hv, e8, hemp]
    rcases hall : t.all isDigit with _ | _
    · have hdrop : ¬ (t.dropWhile isDigit = []) := by
        intro h
        rw [all_of_dropWhile_nil t h] at hall
        simp at hall
      simp only [Bool.not_false, Bool.and_false, Bool.false_eq_true, if_false, hdrop]
      split <;> rfl
    · obtain ⟨h1, h2⟩ := takeWhile_of_all t hall
      simp only [Bool.not_false, Bool.and_true, if_true, h1, h2]
      split <;> omega

/-- C12 as stated fails: in `300x,0,0` the first part is not a numeral, and
its component is 255, not 0. -/
theorem parseColor_comma_counterexample :
    ¬ ∀ (colorsToRGB : GoString → Option (List Nat)) (val p0 p1 p2 : GoString),
        colorsToRGB val = none → Contains val (utf8 ",") = true →
        Split val 44 = [p0, p1, p2] →
        parseColor colorsToRGB val =
          .ok [claimedComponent (Trim p0), claimedComponent (Trim p1),
            claimedComponent (Trim p2)] := by
  intro h
  have h1 := h noColors (utf8 "300x,0,0") (utf8 "300x") (utf8 "0") (utf8 "0") rfl
    (by decide) (by decide)
  revert h1
  decide

/-- C12 (amended): a value that is not a color name and holds a comma gives
the empty color when it does not split on `,` into exactly three parts, and
otherwise three components, the i-th being, for the i-th part with its
surrounding spaces trimmed: `min(n, 255)` when it is an unsigned decimal
numeral of value `n`, 255 when it is not a numeral but starts with decimal
digits that write a number above 255, and 0 otherwise. -/
theorem parseColor_comma_form (colorsToRGB : GoString → Option (List Nat)) (val : GoString)
    (hkey : colorsToRGB val = none) (hcomma : Contains val (utf8 ",") = true) :
    ((Split val 44).length ≠ 3 → parseColor colorsToRGB val = .ok []) ∧
    (∀ p0 p1 p2 : GoString, Split val 44 = [p0, p1, p2] →
      parseColor colorsToRGB val =
        .ok [colorComponent (Trim p0), colorComponent (Trim p1), colorComponent (Trim p2)]) := by
  have hne : val ≠ [] := by
    intro h
    subst h
    revert hcomma
    decide
  constructor
  · intro hlen
    simp only [parseColor, hne, if_false, hkey, hcomma, if_true, hlen, ne_eq, not_false_eq_true]
  · intro p0 p1 p2 hs
    simp only [parseColor, hne, if_false, hkey, hcomma, if_true, hs, List.length_cons,
      List.length_nil, ne_eq, not_true_eq_false, List.map_cons, List.map_nil,
      ParseUint_component]

/-- Witness of C12 (amended): `255,0,0` and `300,0,0` both give `[255, 0, 0]`. -/
theorem parseColor_comma_form_witness :
    (noColors (utf8 "255,0,0") = none ∧ Contains (utf8 "255,0,0") (utf8 ",") = true) ∧
    parseColor noColors (utf8 "255,0,0") =
      .ok [colorComponent (Trim (utf8 "255")), colorComponent (Trim (utf8 "0")),
        colorComponent (Trim (utf8 "0"))] ∧
    [colorComponent (Trim (utf8 "255")), colorComponent (Trim (utf8 "0")),
      colorComponent (Trim (utf8 "0"))] = [255, 0, 0] ∧
    parseColor noColors (utf8 "300,0,0") =
      .ok [colorComponent (Trim (utf8 "300")), colorComponent (Trim (utf8 "0")),
        colorComponent (Trim (utf8 "0"))] ∧
    [colorComponent (Trim (utf8 "300")), colorComponent (Trim (utf8 "0")),
      colorComponent (Trim (utf8 "0"))] = [255, 0, 0] :=
  ⟨⟨rfl, by decide⟩,
    (parseColor_comma_form noColors (utf8 "255,0,0") rfl (by decide)).2 _ _ _ (by decide),
    by decide,
    (parseColor_comma_form noColors (utf8 "300,0,0") rfl (by decide)).2 _ _ _ (by decide),
    by decide⟩

/-! ### The options record -/

theorem parseParam_int {Fit : Type} (tb : Tables Fit) (arch : Arch) (p : GoString) :
    parseParam tb arch p (utf8 "int") = .ok (.int (parseInt arch p)) := rfl

theorem parseParam_float {Fit : Type} (tb : Tables Fit) (arch : Arch) (p : GoString) :
    parseParam tb arch p (utf8 "float") = .ok (.float64 (parseFloat p)) := rfl

theorem parseParam_color {Fit : Type} (tb : Tables Fit) (arch : Arch) (p : GoString) :
    parseParam tb arch p (utf8 "color") =
      (match parseColor tb.colorsToRGB p with
      | .ok c => .ok (.uint8s c)
      | .error e => .error (.runtime e)) := rfl

theorem parseParam_orientation {Fit : Type} (tb : Tables Fit) (arch : Arch) (p : GoString) :
    parseParam tb arch p (utf8 "orientation") = .ok (.Angle (parseOrientation tb p)) := rfl

theorem parseParam_fit {Fit : Type} (tb : Tables Fit) (arch : Arch) (p : GoString) :
    parseParam tb arch p (utf8 "fit") = .ok (.FitType (parseFit tb p)) := rfl

theorem parseParam_fm {Fit : Type} (tb : Tables Fit) (arch : Arch) (p : GoString) :
    parseParam tb arch p (utf8 "fm") = .ok (.ImageType (parseFormat tb p)) := rfl

theorem parseParam_crop {Fit : Type} (tb : Tables Fit) (arch : Arch) (p : GoString) :
    parseParam tb arch p (utf8 "crop") = .ok (.CropType (parseCrop p)) := rfl

/-- The map that the loop of `ParseParams` builds when `parseColor` returns
the slice `c` for the value of `bg`. -/
theorem parseAll_allowedParams_ok {Fit : Type} (tb : Tables Fit) (arch : Arch)
    (query : GoString → List GoString) (c : List Nat)
    (hc : parseColor tb.colorsToRGB (Get query (utf8 "bg")) = .ok c) :
    parseAll tb arch query allowedParams = .ok (paramsMap tb arch query c) := by
  simp only [allowedParams, parseAll, parseParam_int, parseParam_float, parseParam_color,
    parseParam_orientation, parseParam_fit, parseParam_fm, parseParam_crop, hc, paramsMap]

theorem parseAll_allowedParams_error {Fit : Type} (tb : Tables Fit) (arch : Arch)
    (query : GoString → List GoString) (e : RuntimePanic)
    (hc : parseColor tb.colorsToRGB (Get query (utf8 "bg")) = .error e) :
    parseAll tb arch query allowedParams = .error (.runtime e) := by
  simp only [allowedParams, parseAll, parseParam_int, parseParam_float, parseParam_color,
    parseParam_orientation, parseParam_fit, parseParam_fm, parseParam_crop, hc]

theorem mapImageParams_paramsMap {Fit : Type} (tb : Tables Fit) (arch : Arch)
    (query : GoString → List GoString) (c : List Nat) :
    mapImageParams (paramsMap tb arch query c) = .ok (optionsOf tb arch query c) := rfl

/-- The result of `ParseParams` in closed form. -/
theorem ParseParams_eq {Fit : Type} (tb : Tables Fit) (arch : Arch)
    (query : GoString → List GoString) :
    ParseParams tb arch query =
      (match parseColor tb.colorsToRGB (Get query (utf8 "bg")) with
      | .ok c => .ok (optionsOf tb arch query c)
      | .error e => .error (.runtime e)) := by
  unfold ParseParams
  rcases hc : parseColor tb.colorsToRGB (Get query (utf8 "bg")) with e | c
  · rw [parseAll_allowedParams_error tb arch query e hc]
  · rw [parseAll_allowedParams_ok tb arch query c hc]
    exact mapImageParams_paramsMap tb arch query c

theorem parseAll_cons {Fit : Type} (tb : Tables Fit) (arch : Arch)
    (query : GoString → List GoString) (key kind : GoString)
    (l : List (GoString × GoString)) :
    parseAll tb arch query ((key, kind) :: l) =
      (match parseParam tb arch (Get query key) kind with
      | .error p => .error p
      | .ok v =>
        match parseAll tb arch query l with
        | .error p => .error p
        | .ok m => .ok ((key, v) :: m)) := rfl

theorem parseAll_cons_ok {Fit : Type} (tb : Tables Fit) (arch : Arch)
    (query : GoString → List GoString) (x : GoString × GoString)
    (l : List (GoString × GoString)) (m : List (GoString × Value Fit)) :
    parseAll tb arch query (x :: l) = .ok m ↔
      ∃ v m1, parseParam tb arch (Get query x.1) x.2 = .ok v ∧
        parseAll tb arch query l = .ok m1 ∧ m = (x.1, v) :: m1 := by
  obtain ⟨key, kind⟩ := x
  rw [parseAll_cons]
  rcases hp : parseParam tb arch (Get query key) kind with e | v
  · simp
  · rcases hl : parseAll tb arch query l with e | m1
    · simp
    · simp only [Except.ok.injEq, exists_and_left, exists_eq_left']
      constructor
      · intro h
        exact h.symm
      · intro h
        exact h.symm

theorem parseAll_perm_ok {Fit : Type} (tb : Tables Fit) (arch : Arch)
    (query : GoString → List GoString) {l1 l2 : List (GoString × GoString)}
    (h : l1.Perm l2) :
    ∀ m1, parseAll tb arch query l1 = .ok m1 →
      ∃ m2, parseAll tb arch query l2 = .ok m2 ∧ m1.Perm m2 := by
  induction h with
  | nil =>
    intro m1 h1
    exact ⟨m1, h1, List.Perm.refl _⟩
  | cons x _ ih =>
    intro m1 h1
    obtain ⟨v, m, hv, hm, rfl⟩ := (parseAll_cons_ok tb arch query x _ m1).1 h1
    obtain ⟨m2, hm2, hp⟩ := ih m hm
    exact ⟨(x.1, v) :: m2, (parseAll_cons_ok tb arch query x _ _).2 ⟨v, m2, hv, hm2, rfl⟩,
      List.Perm.cons _ hp⟩
  | swap x y l =>
    intro m1 h1
    obtain ⟨vy, m, hvy, hm, rfl⟩ := (parseAll_cons_ok tb arch query y _ m1).1 h1
    obtain ⟨vx, m0, hvx, hm0, rfl⟩ := (parseAll_cons_ok tb arch query x _ m).1 hm
    refine ⟨(x.1, vx) :: (y.1, vy) :: m0, ?_, List.Perm.swap _ _ _⟩
    exact (parseAll_cons_ok tb arch query x _ _).2
      ⟨vx, _, hvx, (parseAll_cons_ok tb arch query y _ _).2 ⟨vy, m0, hvy, hm0, rfl⟩, rfl⟩
  | trans _ _ ih1 ih2 =>
    intro m1 h1
    obtain ⟨m2, hm2, hp2⟩ := ih1 m1 h1
    obtain ⟨m3, hm3, hp3⟩ := ih2 m2 hm2
    exact ⟨m3, hm3, hp2.trans hp3⟩

theorem parseParam_allowed_error {Fit : Type} (tb : Tables Fit) (arch : Arch)
    (query : GoString → List GoString) (x : GoString × GoString) (hx : x ∈ allowedParams)
    (p : ParamsPanic) (hp : parseParam tb arch (Get query x.1) x.2 = .error p) :
    ∃ e, parseColor tb.colorsToRGB (Get query (utf8 "bg")) = .error e ∧ p = .runtime e := by
  simp only [allowedParams, List.mem_cons, List.mem_singleton, List.not_mem_nil, or_false] at hx
  rcases hx with rfl | rfl | rfl | rfl | rfl | rfl | rfl | rfl | rfl | rfl | rfl | rfl | rfl |
    rfl | rfl
  all_goals
    try simp only [parseParam_int, parseParam_float, parseParam_orientation, parseParam_fit,
      parseParam_fm, parseParam_crop, reduceCtorEq] at hp
  simp only [parseParam_color] at hp
  rcases hc : parseColor tb.colorsToRGB (Get query (utf8 "bg")) with e | c
  · rw [hc] at hp
    simp only [Except.error.injEq] at hp
    exact ⟨e, rfl, hp.symm⟩
  · rw [hc] at hp
    simp at hp

theorem parseAll_allowed_error {Fit : Type} (tb : Tables Fit) (arch : Arch)
    (query : GoString → List GoString) :
    ∀ (l : List (GoString × GoString)), (∀ x ∈ l, x ∈ allowedParams) →
      ∀ p, parseAll tb arch query l = .error p →
      ∃ e, parseColor tb.colorsToRGB (Get query (utf8 "bg")) = .error e ∧ p = .runtime e
  | [], _, p, h => by simp [parseAll] at h
  | (key, kind) :: l, hl, p, h => by
    rw [parseAll_cons] at h
    rcases hp : parseParam tb arch (Get query key) kind with e | v
    · rw [hp] at h
      simp only [Except.error.injEq] at h
      subst h
      exact parseParam_allowed_error tb arch query (key, kind) (hl _ (List.mem_cons_self _ _)) e hp
    · rw [hp] at h
      simp only at h
      rcases hr : parseAll tb arch query l with e | m
      · rw [hr] at h
        simp only [Except.error.injEq] at h
        subst h
        exact parseAll_allowed_error tb arch query l
          (fun x hx => hl x (List.mem_cons_of_mem _ hx)) e hr
      · rw [hr] at h
        simp at h

theorem lookup_perm {Fit : Type} {m1 m2 : List (GoString × Value Fit)} (h : m1.Perm m2)
    (hnd : (m1.map Prod.fst).Nodup) (key : GoString) : lookup m1 key = lookup m2 key := by
  induction h with
  | nil => rfl
  | cons x _ ih =>
    simp only [List.map_cons, List.nodup_cons] at hnd
    simp only [lookup, List.find?_cons] at ih ⊢
    split
    · rfl
    · exact ih hnd.2
  | swap x y l =>
    simp only [List.map_cons, List.nodup_cons, List.mem_cons, not_or] at hnd
    simp only [lookup, List.find?_cons]
    by_cases hx : x.1 = key
    · by_cases hy : y.1 = key
      · exact absurd (hy.trans hx.symm) hnd.1.1
      · simp [hx, hy]
    · by_cases hy : y.1 = key
      · simp [hx, hy]
      · simp [hx, hy]
  | trans h1 _ ih1 ih2 =>
    have hnd2 := (List.Perm.nodup_iff (List.Perm.map Prod.fst h1)).1 hnd
    exact (ih1 hnd).trans (ih2 hnd2)

theorem mapImageParams_congr {Fit : Type} (m1 m2 : List (GoString × Value Fit))
    (h : ∀ key, lookup m1 key = lookup m2 key) : mapImageParams m1 = mapImageParams m2 := by
  simp only [mapImageParams, assertInt, assertFloat, h]

theorem ParseParamsIn_perm {Fit : Type} (tb : Tables Fit) (arch : Arch)
    (query : GoString → List GoString) (order : List (GoString × GoString))
    (h : order.Perm allowedParams) :
    ParseParamsIn tb arch query order = ParseParams tb arch query := by
  unfold ParseParamsIn ParseParams
  rcases ha : parseAll tb arch query allowedParams with p | m
  · rcases ho : parseAll tb arch query order with p1 | m1
    · obtain ⟨e, he, rfl⟩ := parseAll_allowed_error tb arch query allowedParams
        (fun x hx => hx) p ha
      obtain ⟨e1, he1, rfl⟩ := parseAll_allowed_error tb arch query order
        (fun x hx => h.subset hx) p1 ho
      rw [he] at he1
      simp only [Except.error.injEq] at he1
      rw [he1]
    · obtain ⟨m2, hm2, _⟩ := parseAll_perm_ok tb arch query h m1 ho
      rw [ha] at hm2
      simp at hm2
  · obtain ⟨m1, hm1, hp⟩ := parseAll_perm_ok tb arch query h.symm m ha
    rw [hm1]
    simp only
    have hnd : (m.map Prod.fst).Nodup := by
      rcases hc : parseColor tb.colorsToRGB (Get query (utf8 "bg")) with e | c
      · rw [parseAll_allowedParams_error tb arch query e hc] at ha
        simp at ha
      · rw [parseAll_allowedParams_ok tb arch query c hc] at ha
        simp only [Except.ok.injEq] at ha
        subst ha
        show ([utf8 "or", utf8 "w", utf8 "h", utf8 "fit", utf8 "dpr", utf8 "bri", utf8 "con",
          utf8 "gam", utf8 "sharp", utf8 "blur", utf8 "pixel", utf8 "bg", utf8 "q", utf8 "fm",
          utf8 "crop"] : List GoString).Nodup
        decide
    exact (mapImageParams_congr m m1 (fun key => lookup_perm hp hnd key)).symm

theorem parseInt_empty (arch : Arch) : parseInt arch [] = 0 := by
  have hf : parseFloat [] = F64.zero := by decide
  unfold parseInt
  rw [hf]
  have hfl : (F64.zero.add F64.half).Floor = .fin false 0 (-1074) := by
    set_option exponentiation.threshold 2000 in
    set_option maxRecDepth 100000 in
    decide
  rw [hfl]
  set_option exponentiation.threshold 2000 in
  simp [F64.toInt]

/-- C15: for the empty query, when the empty string is not a key of the
orientation and fit tables, `ParseParams` returns the record of defaults: the
integer fields 0, `DPR` and `Gamma` `+0`, `Orientation` `bimg.D0`, `Fit`
`FitContain`, `Crop` the sentinel, `Background` empty, and `Format` what
`ExtensionToType("")` gives. -/
theorem ParseParams_empty_query {Fit : Type} (tb : Tables Fit) (arch : Arch)
    (ho : tb.orientationToType (utf8 "") = none) (hf : tb.fitToType (utf8 "") = none) :
    ParseParams tb arch emptyQuery =
      .ok { Width := 0, Height := 0, DPR := F64.zero, Quality := 0,
            Format := tb.ExtensionToType (utf8 ""), Orientation := bimg.D0,
            Fit := tb.FitContain,
            Crop := { Width := -1, Height := -1, X := -1, Y := -1 },
            Background := [], Brightness := 0, Contrast := 0, Gamma := F64.zero,
            Sharpen := 0, Blur := 0 } := by
  have hg : ∀ key, Get emptyQuery key = [] := fun _ => rfl
  have he : utf8 "" = [] := rfl
  rw [he] at ho hf
  have hc : parseColor tb.colorsToRGB [] = .ok [] := rfl
  have hfl : parseFloat [] = F64.zero := by decide
  have hcrop : parseCrop [] = { Width := -1, Height := -1, X := -1, Y := -1 } := by decide
  rw [ParseParams_eq, hg, hc]
  simp only [optionsOf, hg, parseInt_empty, hfl, hcrop, parseOrientation, ho, parseFit, hf,
    parseFormat, he]

/-- Witness of C15: tables in which every lookup misses. -/
theorem ParseParams_empty_query_witness :
    (emptyTables.orientationToType (utf8 "") = none ∧ emptyTables.fitToType (utf8 "") = none) ∧
    ParseParams emptyTables amd64 emptyQuery =
      .ok { Width := 0, Height := 0, DPR := F64.zero, Quality := 0,
            Format := emptyTables.ExtensionToType (utf8 ""), Orientation := bimg.D0,
            Fit := emptyTables.FitContain,
            Crop := { Width := -1, Height := -1, X := -1, Y := -1 },
            Background := [], Brightness := 0, Contrast := 0, Gamma := F64.zero,
            Sharpen := 0, Blur := 0 } :=
  ⟨⟨rfl, rfl⟩, ParseParams_empty_query emptyTables amd64 rfl rfl⟩

/-- C16: for every query, the map that `ParseParams` builds holds each key
that `mapImageParams` reads, with a value of the dynamic type asserted for it,
so `mapImageParams` returns a record; `ParseParams` never ends in a failed
type assertion. -/
theorem mapImageParams_assertions_hold {Fit : Type} (tb : Tables Fit) (arch : Arch)
    (query : GoString → List GoString) :
    (∀ params, parseAll tb arch query allowedParams = .ok params →
      (∃ v, lookup params (utf8 "w") = some (.int v)) ∧
      (∃ v, lookup params (utf8 "h") = some (.int v)) ∧
      (∃ v, lookup params (utf8 "dpr") = some (.float64 v)) ∧
      (∃ v, lookup params (utf8 "q") = some (.int v)) ∧
      (∃ v, lookup params (utf8 "fm") = some (.ImageType v)) ∧
      (∃ v, lookup params (utf8 "or") = some (.Angle v)) ∧
      (∃ v, lookup params (utf8 "fit") = some (.FitType v)) ∧
      (∃ v, lookup params (utf8 "crop") = some (.CropType v)) ∧
      (∃ v, lookup params (utf8 "bg") = some (.uint8s v)) ∧
      (∃ v, lookup params (utf8 "bri") = some (.int v)) ∧
      (∃ v, lookup params (utf8 "con") = some (.int v)) ∧
      (∃ v, lookup params (utf8 "gam") = some (.float64 v)) ∧
      (∃ v, lookup params (utf8 "sharp") = some (.int v)) ∧
      (∃ v, lookup params (utf8 "blur") = some (.int v)) ∧
      (∃ o, mapImageParams params = .ok o)) ∧
    (∀ key, ParseParams tb arch query ≠ .error (.typeAssertion key)) := by
  constructor
  · intro params hp
    rcases hc : parseColor tb.colorsToRGB (Get query (utf8 "bg")) with e | c
    · rw [parseAll_allowedParams_error tb arch query e hc] at hp
      simp at hp
    · rw [parseAll_allowedParams_ok tb arch query c hc] at hp
      simp only [Except.ok.injEq] at hp
      subst hp
      exact ⟨⟨_, rfl⟩, ⟨_, rfl⟩, ⟨_, rfl⟩, ⟨_, rfl⟩, ⟨_, rfl⟩, ⟨_, rfl⟩, ⟨_, rfl⟩, ⟨_, rfl⟩,
        ⟨_, rfl⟩, ⟨_, rfl⟩, ⟨_, rfl⟩, ⟨_, rfl⟩, ⟨_, rfl⟩, ⟨_, rfl⟩, ⟨_, rfl⟩⟩
  · intro key
    rw [ParseParams_eq]
    rcases hc : parseColor tb.colorsToRGB (Get query (utf8 "bg")) with e | c <;> simp

/-- Witness of C16: the query `?w=inf`. -/
theorem mapImageParams_assertions_hold_witness :
    parseAll emptyTables amd64 queryWidthInf allowedParams =
      .ok (paramsMap emptyTables amd64 queryWidthInf []) ∧
    ∃ o, mapImageParams (paramsMap emptyTables amd64 queryWidthInf []) = .ok o :=
  ⟨rfl,
    ((mapImageParams_assertions_hold emptyTables amd64 queryWidthInf).1 _ rfl).2.2.2.2.2.2.2.2.2.2.2.2.2.2⟩

/-- C19: two queries that give the same first value to each of the fourteen
keys read by `mapImageParams` get the same result from `ParseParams`, whatever
they hold for `pixel`, for other keys and as later values; and the result is
the same for every order in which the entries of `allowedParams` are
visited. -/
theorem ParseParams_ignores_pixel_and_order {Fit : Type} (tb : Tables Fit) (arch : Arch) :
    (∀ q1 q2 : GoString → List GoString,
      (∀ key ∈ [utf8 "or", utf8 "w", utf8 "h", utf8 "fit", utf8 "dpr", utf8 "bri", utf8 "con",
          utf8 "gam", utf8 "sharp", utf8 "blur", utf8 "bg", utf8 "q", utf8 "fm", utf8 "crop"],
        Get q1 key = Get q2 key) →
      ParseParams tb arch q1 = ParseParams tb arch q2) ∧
    (∀ (query : GoString → List GoString) (order : List (GoString × GoString)),
      order.Perm allowedParams →
      ParseParamsIn tb arch query order = ParseParams tb arch query) := by
  constructor
  · intro q1 q2 h
    have h1 := h (utf8 "or") (by decide)
    have h2 := h (utf8 "w") (by decide)
    have h3 := h (utf8 "h") (by decide)
    have h4 := h (utf8 "fit") (by decide)
    have h5 := h (utf8 "dpr") (by decide)
    have h6 := h (utf8 "bri") (by decide)
    have h7 := h (utf8 "con") (by decide)
    have h8 := h (utf8 "gam") (by decide)
    have h9 := h (utf8 "sharp") (by decide)
    have h10 := h (utf8 "blur") (by decide)
    have h11 := h (utf8 "bg") (by decide)
    have h12 := h (utf8 "q") (by decide)
    have h13 := h (utf8 "fm") (by decide)
    have h14 := h (utf8 "crop") (by decide)
    rw [ParseParams_eq, ParseParams_eq]
    simp only [optionsOf, h1, h2, h3, h4, h5, h6, h7, h8, h9, h10, h11, h12, h13, h14]
  · intro query order h
    exact ParseParamsIn_perm tb arch query order h

/-- Witness of C19: the queries `?w=inf` and `?w=inf&pixel=9&x=1&w=2` get the
same result. -/
theorem ParseParams_ignores_pixel_and_order_witness :
    ParseParams emptyTables amd64 queryWidthInf =
      ParseParams emptyTables amd64 queryWidthInfPixel :=
  (ParseParams_ignores_pixel_and_order emptyTables amd64).1 queryWidthInf queryWidthInfPixel
    (by decide)

/-- C17: the MIME type that `ProcessImage` resolves for a buffer comes from
three stages in order.  With `s1` the sniffing result, the type after stage 2
is the MIME of `filetype.Get` when `s1` is `application/octet-stream` and that
lookup returns no error and a non-empty MIME, and `s1` otherwise; the resolved
type is `image/svg+xml` when the type after stage 2 contains `text/plain`, the
buffer is longer than 8 bytes and `bimg.IsSVGImage` holds, and the type after
stage 2 otherwise.  A buffer whose `s1` is neither the generic type nor
contains `text/plain` resolves to `s1`. -/
theorem resolveMimeType_stages {X O B : Type} (env : Env X O B) (buf : List Nat) :
    resolveMimeType env buf =
      (if Contains
            (if env.DetectContentType buf = utf8 "application/octet-stream" ∧
                (env.filetypeGet buf).2 = none ∧ (env.filetypeGet buf).1 ≠ []
              then (env.filetypeGet buf).1 else env.DetectContentType buf)
            (utf8 "text/plain") = true ∧ 8 < buf.length ∧ env.IsSVGImage buf = true
        then utf8 "image/svg+xml"
        else
          if env.DetectContentType buf = utf8 "application/octet-stream" ∧
              (env.filetypeGet buf).2 = none ∧ (env.filetypeGet buf).1 ≠ []
            then (env.filetypeGet buf).1 else env.DetectContentType buf) ∧
    (env.DetectContentType buf ≠ utf8 "application/octet-stream" →
      Contains (env.DetectContentType buf) (utf8 "text/plain") = false →
      resolveMimeType env buf = env.DetectContentType buf) := by
  have stage2 :
      (if env.DetectContentType buf = utf8 "application/octet-stream" then
          match env.filetypeGet buf with
          | (value, none) => if value ≠ [] then value else env.DetectContentType buf
          | (_, some _) => env.DetectContentType buf
        else env.DetectContentType buf) =
      (if env.DetectContentType buf = utf8 "application/octet-stream" ∧
          (env.filetypeGet buf).2 = none ∧ (env.filetypeGet buf).1 ≠ []
        then (env.filetypeGet buf).1 else env.DetectContentType buf) := by
    by_cases h1 : env.DetectContentType buf = utf8 "application/octet-stream"
    · rcases hg : env.filetypeGet buf with ⟨value, _ | e⟩
      · by_cases hv : value = []
        · simp [h1, hv]
        · simp [h1, hv]
      · simp [h1]
    · simp [h1]
  constructor
  · unfold resolveMimeType
    simp only [stage2, gt_iff_lt]
  · intro h1 h2
    unfold resolveMimeType
    simp only [stage2, h1, false_and, if_false, h2, Bool.false_eq_true]

/-- Witness of C17: a buffer sniffed as `image/png` resolves to `image/png`. -/
theorem resolveMimeType_stages_witness :
    (panickingEnv.DetectContentType [1, 2, 3] ≠ utf8 "application/octet-stream" ∧
      Contains (panickingEnv.DetectContentType [1, 2, 3]) (utf8 "text/plain") = false) ∧
    resolveMimeType panickingEnv [1, 2, 3] = panickingEnv.DetectContentType [1, 2, 3] :=
  ⟨⟨by decide, by decide⟩,
    (resolveMimeType_stages panickingEnv [1, 2, 3]).2 (by decide) (by decide)⟩

/-- C11 (the code breaks it): `4503599627370497` is `2^52 + 1`, at most
`2^53`.  `parseFloat` gives exactly that number with or without the sign, but
`parseInt` gives `4503599627370498`: the sum `x + 0.5` is not a float64 and
rounds to the even neighbour before `math.Floor` is taken. -/
theorem parseInt_odd_above_two_pow_52 :
    (4503599627370497 = 2 ^ 52 + 1 ∧ 4503599627370497 ≤ 2 ^ 53) ∧
    parseFloat (utf8 "4503599627370497") = .fin false 4503599627370497 0 ∧
    parseFloat (utf8 "-4503599627370497") = .fin false 4503599627370497 0 ∧
    (parseFloat (utf8 "4503599627370497")).add F64.half = .fin false 4503599627370498 0 ∧
    parseInt amd64 (utf8 "4503599627370497") = 4503599627370498 ∧
    parseInt amd64 (utf8 "-4503599627370497") = 4503599627370498 := by
  set_option maxRecDepth 100000 in decide

/-- C18 (the code breaks it): the numeral
`0.499999999999999944488848768742172978818416595458984375` writes
`(2^53 - 1) / 2^54`, a float64 below `1/2`, so rounding it to the nearest
integer gives 0; `parseInt` gives 1 for it, with or without the sign: the sum
`x + 0.5` is not a float64 and rounds to `1.0` before `math.Floor` is taken. -/
theorem parseInt_below_half_gives_one :
    499999999999999944488848768742172978818416595458984375 * 2 ^ 54 =
      (2 ^ 53 - 1) * 10 ^ 54 ∧
    parseFloat (utf8 "0.499999999999999944488848768742172978818416595458984375") =
      .fin false (2 ^ 53 - 1) (-54) ∧
    (parseFloat (utf8 "0.499999999999999944488848768742172978818416595458984375")).add
      F64.half = .fin false (2 ^ 52) (-52) ∧
    parseInt amd64 (utf8 "0.499999999999999944488848768742172978818416595458984375") = 1 ∧
    parseInt amd64 (utf8 "-0.499999999999999944488848768742172978818416595458984375") = 1 := by
  set_option maxRecDepth 1000000 in
  set_option exponentiation.threshold 2000 in
  decide

end Hyperpic
